import Mathlib

/-!
Verification of the AssetManagement repository (TypeScript/Express CRUD app)
against its natural-language specification.

The embedding models JavaScript runtime values shallowly: a `JsVal` is a
primitive (string, integer number, boolean, null, undefined) or an opaque
object reference (`vRef`), so that JavaScript strict equality `===` becomes
decidable equality on `JsVal` (object identity for references).  Records
(plain JS objects) are association lists in insertion order; property access
on a missing key yields `vUndef`.  Floating-point numbers are abstracted to
integers (no claim here depends on float arithmetic), and database-generated
timestamp columns are abstracted away.
-/

namespace AssetMgmt

/-- A JavaScript runtime value, shallowly embedded. -/
inductive JsVal where
  | vStr (s : String)
  | vNum (n : Int)
  | vBool (b : Bool)
  | vNull
  | vUndef
  | vRef (id : Nat)
deriving DecidableEq, Repr

/-- A JS object: association list of fields in insertion order. -/
abbrev Rec := List (String × JsVal)

/-- Property access `r[k]`: first binding wins; a missing key is `undefined`. -/
def jsGet (r : Rec) (k : String) : JsVal :=
  match r.lookup k with
  | some v => v
  | none => JsVal.vUndef

/-- JavaScript truthiness of a value ("" and 0 and false and null and
undefined are falsy, everything else truthy). -/
def jsTruthy : JsVal → Bool
  | JsVal.vStr s => s ≠ ""
  | JsVal.vNum n => n ≠ 0
  | JsVal.vBool b => b
  | JsVal.vNull => false
  | JsVal.vUndef => false
  | JsVal.vRef _ => true

/-- The JS idiom `v || null` used by the route handlers for optional fields. -/
def jsOrNull (v : JsVal) : JsVal :=
  if jsTruthy v then v else JsVal.vNull

/-- First-occurrence deduplication, the key order of `Object.keys`. -/
def dedupFirst : List String → List String
  | [] => []
  | k :: ks => k :: (dedupFirst ks).filter (fun x => x ≠ k)

/-- `Object.keys r`: the record's keys in insertion order, each once. -/
def objKeys (r : Rec) : List String :=
  dedupFirst (r.map Prod.fst)

/-- One entry of the audit diff produced by `getChanges`. -/
structure Change where
  field : String
  oldValue : JsVal
  newValue : JsVal
deriving DecidableEq, Repr

/-- `getChanges(oldData, newData)` from the route module: for each key of
`newData` (in iteration order) whose value differs strictly (`!==`) from
`oldData`'s value at that key, emit one `{field, oldValue, newValue}` entry. -/
def getChanges (oldData newData : Rec) : List Change :=
  (objKeys newData).filterMap (fun key =>
    if jsGet oldData key ≠ jsGet newData key then
      some ⟨key, jsGet oldData key, jsGet newData key⟩
    else
      none)

theorem dedupFirst_nodup (l : List String) : (dedupFirst l).Nodup := by
  induction l with
  | nil => simp [dedupFirst]
  | cons k ks ih =>
    simp only [dedupFirst, List.nodup_cons]
    constructor
    · intro hmem
      have := List.of_mem_filter hmem
      simp at this
    · exact ih.filter _

theorem objKeys_nodup (r : Rec) : (objKeys r).Nodup :=
  dedupFirst_nodup _

theorem mem_dedupFirst (l : List String) (k : String) :
    k ∈ dedupFirst l ↔ k ∈ l := by
  induction l with
  | nil => simp [dedupFirst]
  | cons a as ih =>
    simp only [dedupFirst, List.mem_cons, List.mem_filter]
    constructor
    · rintro (rfl | ⟨h, _⟩)
      · exact Or.inl rfl
      · exact Or.inr (ih.mp h)
    · rintro (rfl | h)
      · exact Or.inl rfl
      · by_cases hk : k = a
        · exact Or.inl hk
        · exact Or.inr ⟨ih.mpr h, by simpa using hk⟩

theorem getChanges_fields_aux (o n : Rec) (ks : List String) :
    (ks.filterMap (fun key =>
      if jsGet o key ≠ jsGet n key then
        some (Change.mk key (jsGet o key) (jsGet n key))
      else
        none)).map Change.field =
      ks.filter (fun k => jsGet o k ≠ jsGet n k) := by
  induction ks with
  | nil => rfl
  | cons k ks ih =>
    rw [List.filterMap_cons, List.filter_cons]
    by_cases h : jsGet o k ≠ jsGet n k
    · rw [if_pos h, List.map_cons, ih, if_pos (by simpa using h)]
    · rw [if_neg h, ih, if_neg (by simpa using h)]

theorem getChanges_fields (oldData newData : Rec) :
    (getChanges oldData newData).map Change.field =
      (objKeys newData).filter (fun k => jsGet oldData k ≠ jsGet newData k) :=
  getChanges_fields_aux oldData newData (objKeys newData)

theorem getChanges_entries (oldData newData : Rec) :
    ∀ c ∈ getChanges oldData newData,
      c.oldValue = jsGet oldData c.field ∧ c.newValue = jsGet newData c.field ∧
      c.field ∈ objKeys newData ∧ jsGet oldData c.field ≠ jsGet newData c.field := by
  intro c hc
  unfold getChanges at hc
  obtain ⟨k, hk, hck⟩ := List.mem_filterMap.mp hc
  by_cases h : jsGet oldData k ≠ jsGet newData k
  · simp only [if_pos h] at hck
    obtain rfl := Option.some_injective _ hck
    exact ⟨rfl, rfl, hk, h⟩
  · simp [if_neg h] at hck

/-- C2: the audit diff is a shallow field-by-field comparison.  The list of
reported fields is exactly the keys of `newData` (in iteration order) at which
the old and new values differ; each entry carries the old and the new value at
its field; no key outside `newData` and no key with equal values is reported;
the key list being `Nodup`, there is exactly one entry per differing key. -/
theorem claim_C2_getChanges_spec (oldData newData : Rec) :
    ((getChanges oldData newData).map Change.field =
      (objKeys newData).filter (fun k => jsGet oldData k ≠ jsGet newData k)) ∧
    ((getChanges oldData newData).map Change.field).Nodup ∧
    (∀ c ∈ getChanges oldData newData,
      c.oldValue = jsGet oldData c.field ∧ c.newValue = jsGet newData c.field ∧
      c.field ∈ objKeys newData ∧ jsGet oldData c.field ≠ jsGet newData c.field) := by
  refine ⟨getChanges_fields oldData newData, ?_, getChanges_entries oldData newData⟩
  rw [getChanges_fields oldData newData]
  exact (objKeys_nodup newData).filter _

/-- Witness for C2 at a concrete pair of records: one changed key and one
fresh key are reported, in the new record's key order. -/
theorem claim_C2_getChanges_spec_witness :
    (getChanges [("a", JsVal.vNum 1)] [("a", JsVal.vNum 2), ("b", JsVal.vStr "x")]).map
        Change.field =
      (objKeys [("a", JsVal.vNum 2), ("b", JsVal.vStr "x")]).filter
        (fun k => jsGet [("a", JsVal.vNum 1)] k ≠
          jsGet [("a", JsVal.vNum 2), ("b", JsVal.vStr "x")] k) :=
  (claim_C2_getChanges_spec [("a", JsVal.vNum 1)]
    [("a", JsVal.vNum 2), ("b", JsVal.vStr "x")]).1

/-! ## CSV import column-mapping heuristic (client import page) -/

/-- A character matched by the JavaScript regex class `\s` (ASCII range). -/
def isWsChar (c : Char) : Bool :=
  c = ' ' || c = '\t' || c = '\n' || c = '\r' || c.toNat = 11 || c.toNat = 12

/-- `str.toLowerCase().replace(/[_\-\s]/g, "")`: lowercase, then drop
underscores, hyphens and whitespace. -/
def normalizeStr (s : String) : String :=
  String.mk ((s.toList.map Char.toLower).filter
    (fun c => !(c = '_' || c = '-' || isWsChar c)))

/-- Whether `needle` occurs contiguously inside `hay` (JS `hay.includes(needle)`
on lists of characters). -/
def listHasInfix (needle : List Char) : List Char → Bool
  | [] => needle.isEmpty
  | c :: rest => needle.isPrefixOf (c :: rest) || listHasInfix needle rest

/-- JS `hay.includes(needle)` for strings. -/
def strIncludes (hay needle : String) : Bool :=
  listHasInfix needle.toList hay.toList

/-- `calculateSimilarity` from the import page: normalize both strings; equal
normalizations score 1; one containing the other scores 0.8; otherwise the
number of characters of the shorter normalized string found in the longer one,
divided by the length of the longer one. -/
def calculateSimilarity (str1 str2 : String) : ℚ :=
  let s1 := normalizeStr str1
  let s2 := normalizeStr str2
  if s1 = s2 then 1
  else if strIncludes s1 s2 || strIncludes s2 s1 then 4/5
  else
    let shorter := if s1.length < s2.length then s1 else s2
    let longer := if s1.length < s2.length then s2 else s1
    let matchCount := (shorter.toList.filter (fun c => longer.toList.contains c)).length
    (matchCount : ℚ) / (longer.length : ℚ)

/-- The similarity formula as the claim words it (refinement comparison only):
identical to `calculateSimilarity` except that the final branch divides the
match count by the length of the SHORTER normalized string. -/
def specSimilarity (str1 str2 : String) : ℚ :=
  let s1 := normalizeStr str1
  let s2 := normalizeStr str2
  if s1 = s2 then 1
  else if strIncludes s1 s2 || strIncludes s2 s1 then 4/5
  else
    let shorter := if s1.length < s2.length then s1 else s2
    let longer := if s1.length < s2.length then s2 else s1
    let matchCount := (shorter.toList.filter (fun c => longer.toList.contains c)).length
    (matchCount : ℚ) / (shorter.length : ℚ)

/-- One entry of `ASSET_FIELDS` from the shared schema. -/
structure AssetField where
  key : String
  label : String
  required : Bool
deriving DecidableEq, Repr

/-- The standard asset fields offered for column mapping (shared schema). -/
def ASSET_FIELDS : List AssetField :=
  [⟨"assetTag", "Asset Tag", true⟩,
   ⟨"name", "Name", true⟩,
   ⟨"description", "Description", false⟩,
   ⟨"manufacturer", "Manufacturer", false⟩,
   ⟨"model", "Model", false⟩,
   ⟨"serialNumber", "Serial Number", false⟩,
   ⟨"purchaseDate", "Purchase Date", false⟩,
   ⟨"purchaseCost", "Purchase Cost", false⟩,
   ⟨"warrantyExpiry", "Warranty Expiry", false⟩,
   ⟨"location", "Location", false⟩,
   ⟨"status", "Status", false⟩,
   ⟨"notes", "Notes", false⟩]

def SIMILARITY_THRESHOLD : ℚ := 2/5

/-- The score a field gets against a header: the larger of the label
similarity and the key similarity. -/
def fieldSim (header : String) (f : AssetField) : ℚ :=
  max (calculateSimilarity header f.label) (calculateSimilarity header f.key)

/-- One step of `suggestMapping`'s loop over `ASSET_FIELDS`. -/
def suggestStep (header : String) (best : String × ℚ) (f : AssetField) : String × ℚ :=
  let maxSim := fieldSim header f
  if best.2 < maxSim then (f.key, maxSim) else best

/-- The loop of `suggestMapping`, before the threshold test. -/
def suggestBest (header : String) : String × ℚ :=
  ASSET_FIELDS.foldl (suggestStep header) ("", 0)

/-- `suggestMapping` from the import page: keep the best-scoring field if its
confidence reaches the threshold, else the empty suggestion. -/
def suggestMapping (header : String) : String × ℚ :=
  let best := suggestBest header
  if SIMILARITY_THRESHOLD ≤ best.2 then best else ("", 0)

/-- The maximal field score for a header (0 when nothing scores positively). -/
def bestConf (header : String) : ℚ :=
  (ASSET_FIELDS.map (fieldSim header)).foldl max 0

theorem suggestFold_spec (header : String) (l : List AssetField) (b : String × ℚ) :
    b.2 ≤ (l.foldl (suggestStep header) b).2 ∧
    (∀ f ∈ l, fieldSim header f ≤ (l.foldl (suggestStep header) b).2) ∧
    (l.foldl (suggestStep header) b = b ∨
      ∃ f ∈ l, (l.foldl (suggestStep header) b).1 = f.key ∧
        (l.foldl (suggestStep header) b).2 = fieldSim header f) ∧
    (l.foldl (suggestStep header) b).2 = (l.map (fieldSim header)).foldl max b.2 := by
  induction l generalizing b with
  | nil => exact ⟨le_refl _, by simp, Or.inl rfl, rfl⟩
  | cons f l ih =>
    have hstep2 : (suggestStep header b f).2 = max b.2 (fieldSim header f) := by
      unfold suggestStep
      by_cases h : b.2 < fieldSim header f
      · rw [if_pos h]
        exact (max_eq_right h.le).symm
      · rw [if_neg h]
        exact (max_eq_left (not_lt.mp h)).symm
    obtain ⟨ih1, ih2, ih3, ih4⟩ := ih (suggestStep header b f)
    have hb : b.2 ≤ (suggestStep header b f).2 := by
      rw [hstep2]; exact le_max_left _ _
    have hf : fieldSim header f ≤ (suggestStep header b f).2 := by
      rw [hstep2]; exact le_max_right _ _
    refine ⟨le_trans hb ih1, ?_, ?_, ?_⟩
    · intro g hg
      rcases List.mem_cons.mp hg with rfl | hg'
      · exact le_trans hf ih1
      · exact ih2 g hg'
    · rcases ih3 with heq | ⟨g, hg, h1, h2⟩
      · rw [List.foldl_cons, heq]
        unfold suggestStep
        by_cases h : b.2 < fieldSim header f
        · rw [if_pos h]
          exact Or.inr ⟨f, List.mem_cons_self f l, rfl, rfl⟩
        · rw [if_neg h]
          exact Or.inl rfl
      · exact Or.inr ⟨g, List.mem_cons_of_mem f hg, h1, h2⟩
    · rw [List.foldl_cons, ih4, List.map_cons, List.foldl_cons, hstep2]

theorem suggestBest_conf (header : String) :
    (suggestBest header).2 = bestConf header :=
  (suggestFold_spec header ASSET_FIELDS ("", 0)).2.2.2

/-- C5 counterexample: on header "ax" against field name "abcd" (normalized
forms "ax" and "abcd": not equal, neither contains the other, one character of
the shorter occurs in the longer) the code returns 1/4 — the match count over
the LONGER length — while the claim's formula (match count over the shorter
length) gives 1/2. -/
theorem claim_C5_counterexample :
    calculateSimilarity "ax" "abcd" = 1/4 ∧
    specSimilarity "ax" "abcd" = 1/2 ∧
    calculateSimilarity "ax" "abcd" ≠ specSimilarity "ax" "abcd" := by
  have h1 : calculateSimilarity "ax" "abcd" = ((1:ℕ) : ℚ) / ((4:ℕ) : ℚ) := rfl
  have h2 : specSimilarity "ax" "abcd" = ((1:ℕ) : ℚ) / ((2:ℕ) : ℚ) := rfl
  refine ⟨?_, ?_, ?_⟩
  · rw [h1]; norm_num
  · rw [h2]; norm_num
  · rw [h1, h2]; norm_num

/-- C5 amended: similarity scoring as in the claim except that the fractional
branch divides the match count by the length of the LONGER normalized string;
`suggestMapping` returns a best-scoring field (over both key and label) when
the maximal score reaches the threshold 0.4, and the empty suggestion with
confidence 0 otherwise. -/
theorem claim_C5_amended (str1 str2 header : String) :
    (normalizeStr str1 = normalizeStr str2 → calculateSimilarity str1 str2 = 1) ∧
    (normalizeStr str1 ≠ normalizeStr str2 →
      (strIncludes (normalizeStr str1) (normalizeStr str2) ||
       strIncludes (normalizeStr str2) (normalizeStr str1)) = true →
      calculateSimilarity str1 str2 = 4/5) ∧
    (normalizeStr str1 ≠ normalizeStr str2 →
      (strIncludes (normalizeStr str1) (normalizeStr str2) ||
       strIncludes (normalizeStr str2) (normalizeStr str1)) = false →
      calculateSimilarity str1 str2 =
        (((if (normalizeStr str1).length < (normalizeStr str2).length then
            normalizeStr str1 else normalizeStr str2).toList.filter
          (fun c => ((if (normalizeStr str1).length < (normalizeStr str2).length then
            normalizeStr str2 else normalizeStr str1).toList.contains c))).length : ℚ) /
        (((if (normalizeStr str1).length < (normalizeStr str2).length then
            normalizeStr str2 else normalizeStr str1).length : ℚ))) ∧
    (∀ f ∈ ASSET_FIELDS, fieldSim header f ≤ bestConf header) ∧
    (SIMILARITY_THRESHOLD ≤ bestConf header →
      (suggestMapping header).2 = bestConf header ∧
      ∃ f ∈ ASSET_FIELDS, (suggestMapping header).1 = f.key ∧
        fieldSim header f = bestConf header) ∧
    (bestConf header < SIMILARITY_THRESHOLD → suggestMapping header = ("", 0)) := by
  refine ⟨?_, ?_, ?_, ?_, ?_, ?_⟩
  · intro h
    unfold calculateSimilarity
    rw [if_pos h]
  · intro h hinc
    unfold calculateSimilarity
    rw [if_neg h, if_pos hinc]
  · intro h hinc
    unfold calculateSimilarity
    rw [if_neg h, if_neg (by simp [hinc])]
  · intro f hf
    have := (suggestFold_spec header ASSET_FIELDS ("", 0)).2.1 f hf
    rwa [← suggestBest_conf header]
  · intro hth
    have hconf := suggestBest_conf header
    have hmap : suggestMapping header = suggestBest header := by
      unfold suggestMapping
      rw [if_pos (by rw [hconf]; exact hth)]
    constructor
    · rw [hmap, hconf]
    · rcases (suggestFold_spec header ASSET_FIELDS ("", 0)).2.2.1 with heq | ⟨f, hf, h1, h2⟩
      · exfalso
        have h0 : (suggestBest header).2 = 0 := by
          unfold suggestBest
          rw [heq]
        rw [hconf] at h0
        rw [h0] at hth
        exact absurd hth (by norm_num [SIMILARITY_THRESHOLD])
      · exact ⟨f, hf, by rw [hmap]; exact h1, by rw [← h2, ← hconf]; rfl⟩
  · intro hlt
    unfold suggestMapping
    rw [if_neg (by rw [suggestBest_conf header]; exact not_le.mpr hlt)]

set_option maxRecDepth 8000 in
/-- Witness for the C5 amended theorem: concrete evaluation at the header
"Asset Tag", which matches the field label exactly after normalization. -/
theorem claim_C5_amended_witness :
    calculateSimilarity "Asset Tag" "Asset Tag" = 1 ∧
    suggestMapping "Asset Tag" = ("assetTag", 1) := by
  have hb : bestConf "Asset Tag" = 1 := by with_unfolding_all decide
  have hth : SIMILARITY_THRESHOLD ≤ bestConf "Asset Tag" := by
    rw [hb]; norm_num [SIMILARITY_THRESHOLD]
  constructor
  · exact (claim_C5_amended "Asset Tag" "Asset Tag" "Asset Tag").1 rfl
  · have h := (claim_C5_amended "Asset Tag" "Asset Tag" "Asset Tag").2.2.2.2.1 hth
    have hfield : (suggestMapping "Asset Tag").1 = "assetTag" := by
      with_unfolding_all decide
    have hconf : (suggestMapping "Asset Tag").2 = 1 := by rw [h.1, hb]
    exact Prod.ext hfield hconf

/-! ## Server state and route handlers

The route handlers of the API module are modelled as functions from a server
state (the database tables, each a list of rows in insertion order) and the
request data to a response and a successor state.  Request-body validation
(`zod` schema parsing) is modelled by handing the handler the parse result as
an `Option Rec`; the database-generated row id is a handler argument (the
database generates a fresh UUID).  `WHERE id = ...` clauses update or delete
the matching rows; `id` is the primary key, so the update helper rewrites the
first match, which is the unique one in real database states. -/

/-- An audit-log record as inserted by `createAuditLog` (the generated row id
and `createdAt` timestamp are abstracted away; the list position of a record
in `ServerState.auditLogs` reflects its creation order). -/
structure AuditLog where
  entityType : String
  entityId : String
  action : String
  userId : Option String
  userName : String
  previousData : Option Rec
  newData : Option Rec
  changes : Option (List Change)
  ipAddress : String
  userAgent : String
deriving DecidableEq, Repr

/-- The actor and client information attached to audit writes, as produced by
`getUserInfo` and `getClientInfo`. -/
structure ReqCtx where
  userId : Option String
  userName : String
  ipAddress : String
  userAgent : String
deriving DecidableEq, Repr

/-- The relational state behind the storage layer. -/
structure ServerState where
  categories : List Rec
  assets : List Rec
  adUsers : List Rec
  auditLogs : List AuditLog
deriving DecidableEq, Repr

def initState : ServerState := ⟨[], [], [], []⟩

/-- A request context used for concrete evaluations. -/
def sampleCtx : ReqCtx := ⟨none, "System", "127.0.0.1", "test-agent"⟩

/-- The `assetTag` column of an asset row. -/
def tagOf (a : Rec) : JsVal := jsGet a "assetTag"

/-- `SELECT ... WHERE id = ?` returning the first (unique) match. -/
def getById (table : List Rec) (idv : JsVal) : Option Rec :=
  table.find? (fun r => jsGet r "id" == idv)

/-- `storage.getAssetByTag`: first asset whose `assetTag` column equals the
requested tag. -/
def getAssetByTag (s : ServerState) (tag : JsVal) : Option Rec :=
  s.assets.find? (fun a => jsGet a "assetTag" == tag)

/-- `UPDATE ... SET` of the patch's columns on one row (columns not in the
patch keep their values; the patch only touches existing columns). -/
def recUpdate (base patch : Rec) : Rec :=
  base.map (fun kv =>
    if (patch.map Prod.fst).contains kv.1 then (kv.1, jsGet patch kv.1) else kv)

/-- `UPDATE ... WHERE id = ? RETURNING`: rewrite the first row whose id
matches and return it (the id column is the primary key). -/
def dbUpdateById (idv : JsVal) (patch : Rec) : List Rec → Option Rec × List Rec
  | [] => (none, [])
  | r :: rest =>
    if jsGet r "id" == idv then
      (some (recUpdate r patch), recUpdate r patch :: rest)
    else
      let q := dbUpdateById idv patch rest
      (q.1, r :: q.2)

/-- `DELETE ... WHERE id = ?`. -/
def dbDeleteById (idv : JsVal) (table : List Rec) : List Rec :=
  table.filter (fun r => !(jsGet r "id" == idv))

/-- `storage.updateAsset`: the UPDATE of `dbUpdateById` subject to the
`asset_tag` UNIQUE column constraint of the schema.  When the updated row's
resulting `assetTag` equals the `assetTag` of any OTHER row (every row except
the one being rewritten), the database raises a unique violation and the
statement throws: that outcome is `none`.  Otherwise the update commits. -/
def dbUpdateAssetById (idv : JsVal) (patch : Rec) (table : List Rec) :
    Option (Option Rec × List Rec) :=
  match table.find? (fun r => jsGet r "id" == idv) with
  | none => some (dbUpdateById idv patch table)
  | some r =>
    if (table.eraseP (fun x => jsGet x "id" == idv)).any
        (fun a => tagOf a == tagOf (recUpdate r patch)) then
      none
    else
      some (dbUpdateById idv patch table)

/-- A route handler's outcome. -/
inductive ApiOut where
  | json (status : Nat) (body : Option Rec)
  | deleteOk (deleted : Bool)
  | error (status : Nat) (message : String)
deriving DecidableEq, Repr

def ApiOut.isError : ApiOut → Bool
  | ApiOut.error _ _ => true
  | _ => false

/-- POST /api/categories. -/
def postCategory (s : ServerState) (ctx : ReqCtx) (parsed : Option Rec)
    (newId : String) : ApiOut × ServerState :=
  match parsed with
  | none => (ApiOut.error 400 "Validation error", s)
  | some data =>
    let category : Rec := ("id", JsVal.vStr newId) :: data
    let log : AuditLog := ⟨"category", newId, "create", ctx.userId, ctx.userName,
      none, some category, none, ctx.ipAddress, ctx.userAgent⟩
    (ApiOut.json 201 (some category),
      { s with categories := s.categories ++ [category],
               auditLogs := s.auditLogs ++ [log] })

/-- PATCH /api/categories/:id. -/
def patchCategory (s : ServerState) (ctx : ReqCtx) (id : String)
    (parsed : Option Rec) : ApiOut × ServerState :=
  match getById s.categories (JsVal.vStr id) with
  | none => (ApiOut.error 404 "Category not found", s)
  | some existing =>
    match parsed with
    | none => (ApiOut.error 400 "Validation error", s)
    | some data =>
      let q := dbUpdateById (JsVal.vStr id) data s.categories
      let log : AuditLog := ⟨"category", id, "update", ctx.userId, ctx.userName,
        some existing, q.1, some (getChanges existing data), ctx.ipAddress, ctx.userAgent⟩
      (ApiOut.json 200 q.1,
        { s with categories := q.2, auditLogs := s.auditLogs ++ [log] })

/-- DELETE /api/categories/:id. -/
def deleteCategoryH (s : ServerState) (ctx : ReqCtx) (id : String) :
    ApiOut × ServerState :=
  match getById s.categories (JsVal.vStr id) with
  | none => (ApiOut.error 404 "Category not found", s)
  | some existing =>
    let log : AuditLog := ⟨"category", id, "delete", ctx.userId, ctx.userName,
      some existing, none, none, ctx.ipAddress, ctx.userAgent⟩
    (ApiOut.deleteOk (s.categories.any (fun r => jsGet r "id" == JsVal.vStr id)),
      { s with categories := dbDeleteById (JsVal.vStr id) s.categories,
               auditLogs := s.auditLogs ++ [log] })

/-- POST /api/assets: validation, then the duplicate-tag guard, then the
insert and the audit write. -/
def postAsset (s : ServerState) (ctx : ReqCtx) (parsed : Option Rec)
    (newId : String) : ApiOut × ServerState :=
  match parsed with
  | none => (ApiOut.error 400 "Validation error", s)
  | some data =>
    match getAssetByTag s (jsGet data "assetTag") with
    | some _ => (ApiOut.error 400 "Asset tag already exists", s)
    | none =>
      let asset : Rec := ("id", JsVal.vStr newId) :: data
      let log : AuditLog := ⟨"asset", newId, "create", ctx.userId, ctx.userName,
        none, some asset, none, ctx.ipAddress, ctx.userAgent⟩
      (ApiOut.json 201 (some asset),
        { s with assets := s.assets ++ [asset],
                 auditLogs := s.auditLogs ++ [log] })

/-- The shared tail of PATCH /api/assets/:id after its guards: the UPDATE
(subject to the `asset_tag` unique constraint: a violation throws and the
handler's catch answers 500 with nothing written), then the audit write with
before/after snapshots and the `getChanges` diff, then the response. -/
def patchAssetApply (s : ServerState) (ctx : ReqCtx) (id : String)
    (existing data : Rec) : ApiOut × ServerState :=
  match dbUpdateAssetById (JsVal.vStr id) data s.assets with
  | none => (ApiOut.error 500 "Failed to update asset", s)
  | some q =>
    let log : AuditLog := ⟨"asset", id, "update", ctx.userId, ctx.userName,
      some existing, q.1, some (getChanges existing data), ctx.ipAddress, ctx.userAgent⟩
    (ApiOut.json 200 q.1,
      { s with assets := q.2, auditLogs := s.auditLogs ++ [log] })

/-- PATCH /api/assets/:id: 404 guard, validation, then the duplicate-tag
guard — skipped when the requested `assetTag` is falsy or unchanged — then
the update. -/
def patchAsset (s : ServerState) (ctx : ReqCtx) (id : String)
    (parsed : Option Rec) : ApiOut × ServerState :=
  match getById s.assets (JsVal.vStr id) with
  | none => (ApiOut.error 404 "Asset not found", s)
  | some existing =>
    match parsed with
    | none => (ApiOut.error 400 "Validation error", s)
    | some data =>
      if jsTruthy (jsGet data "assetTag") = true ∧
          jsGet data "assetTag" ≠ jsGet existing "assetTag" then
        match getAssetByTag s (jsGet data "assetTag") with
        | some _ => (ApiOut.error 400 "Asset tag already exists", s)
        | none => patchAssetApply s ctx id existing data
      else
        patchAssetApply s ctx id existing data

/-- DELETE /api/assets/:id. -/
def deleteAssetH (s : ServerState) (ctx : ReqCtx) (id : String) :
    ApiOut × ServerState :=
  match getById s.assets (JsVal.vStr id) with
  | none => (ApiOut.error 404 "Asset not found", s)
  | some existing =>
    let log : AuditLog := ⟨"asset", id, "delete", ctx.userId, ctx.userName,
      some existing, none, none, ctx.ipAddress, ctx.userAgent⟩
    (ApiOut.deleteOk (s.assets.any (fun r => jsGet r "id" == JsVal.vStr id)),
      { s with assets := dbDeleteById (JsVal.vStr id) s.assets,
               auditLogs := s.auditLogs ++ [log] })

/-- POST /api/ad-users. -/
def postAdUser (s : ServerState) (ctx : ReqCtx) (parsed : Option Rec)
    (newId : String) : ApiOut × ServerState :=
  match parsed with
  | none => (ApiOut.error 400 "Validation error", s)
  | some data =>
    let user : Rec := ("id", JsVal.vStr newId) :: data
    let log : AuditLog := ⟨"user", newId, "create", ctx.userId, ctx.userName,
      none, some user, none, ctx.ipAddress, ctx.userAgent⟩
    (ApiOut.json 201 (some user),
      { s with adUsers := s.adUsers ++ [user],
               auditLogs := s.auditLogs ++ [log] })

/-- PATCH /api/ad-users/:id. -/
def patchAdUser (s : ServerState) (ctx : ReqCtx) (id : String)
    (parsed : Option Rec) : ApiOut × ServerState :=
  match getById s.adUsers (JsVal.vStr id) with
  | none => (ApiOut.error 404 "User not found", s)
  | some existing =>
    match parsed with
    | none => (ApiOut.error 400 "Validation error", s)
    | some data =>
      let q := dbUpdateById (JsVal.vStr id) data s.adUsers
      let log : AuditLog := ⟨"user", id, "update", ctx.userId, ctx.userName,
        some existing, q.1, some (getChanges existing data), ctx.ipAddress, ctx.userAgent⟩
      (ApiOut.json 200 q.1,
        { s with adUsers := q.2, auditLogs := s.auditLogs ++ [log] })

/-- DELETE /api/ad-users/:id. -/
def deleteAdUserH (s : ServerState) (ctx : ReqCtx) (id : String) :
    ApiOut × ServerState :=
  match getById s.adUsers (JsVal.vStr id) with
  | none => (ApiOut.error 404 "User not found", s)
  | some existing =>
    let log : AuditLog := ⟨"user", id, "delete", ctx.userId, ctx.userName,
      some existing, none, none, ctx.ipAddress, ctx.userAgent⟩
    (ApiOut.deleteOk (s.adUsers.any (fun r => jsGet r "id" == JsVal.vStr id)),
      { s with adUsers := dbDeleteById (JsVal.vStr id) s.adUsers,
               auditLogs := s.auditLogs ++ [log] })

/-- `ASSET_STATUSES` from the shared schema. -/
def ASSET_STATUSES : List String :=
  ["active", "inactive", "maintenance", "retired", "disposed", "lost", "stolen"]

/-- One row of a bulk-import request, together with its environment: whether
the storage insert succeeds for it (`storageOk`, modelling a thrown storage
error) and the database-generated id it would receive. -/
structure ImportRow where
  row : Rec
  storageOk : Bool
  newId : String
deriving DecidableEq, Repr

/-- The `assetData` object the import handler builds from a row. -/
def importAssetData (row : Rec) (categoryId : JsVal) : Rec :=
  [("assetTag", jsGet row "assetTag"),
   ("name", jsGet row "name"),
   ("description", jsOrNull (jsGet row "description")),
   ("categoryId", jsOrNull categoryId),
   ("status",
     if jsTruthy (jsGet row "status") &&
         (ASSET_STATUSES.map JsVal.vStr).contains (jsGet row "status") then
       jsGet row "status"
     else JsVal.vStr "active"),
   ("manufacturer", jsOrNull (jsGet row "manufacturer")),
   ("model", jsOrNull (jsGet row "model")),
   ("serialNumber", jsOrNull (jsGet row "serialNumber")),
   ("location", jsOrNull (jsGet row "location")),
   ("purchaseCost", jsOrNull (jsGet row "purchaseCost")),
   ("notes", jsOrNull (jsGet row "notes"))]

/-- One iteration of the import loop: the row fails (`false`) on a missing
tag or name, a duplicate tag, or a storage error; otherwise the asset is
created and one audit record written. -/
def processImportRow (s : ServerState) (ctx : ReqCtx) (categoryId : JsVal)
    (r : ImportRow) : Bool × ServerState :=
  if !jsTruthy (jsGet r.row "assetTag") || !jsTruthy (jsGet r.row "name") then
    (false, s)
  else
    match getAssetByTag s (jsGet r.row "assetTag") with
    | some _ => (false, s)
    | none =>
      if r.storageOk then
        let asset : Rec := ("id", JsVal.vStr r.newId) :: importAssetData r.row categoryId
        let log : AuditLog := ⟨"asset", r.newId, "create", ctx.userId, ctx.userName,
          none, some (asset ++ [("source", JsVal.vStr "import")]), none,
          ctx.ipAddress, ctx.userAgent⟩
        (true, { s with assets := s.assets ++ [asset],
                        auditLogs := s.auditLogs ++ [log] })
      else
        (false, s)

/-- The import loop over all rows, accumulating the success/failed counts. -/
def runImportRows (ctx : ReqCtx) (categoryId : JsVal) :
    ServerState → List ImportRow → Nat × Nat × ServerState
  | s, [] => (0, 0, s)
  | s, r :: rest =>
    let p := processImportRow s ctx categoryId r
    let q := runImportRows ctx categoryId p.2 rest
    (if p.1 then q.1 + 1 else q.1, if p.1 then q.2.1 else q.2.1 + 1, q.2.2)

/-- A bulk-import response. -/
inductive ImportOut where
  | invalid
  | done (success failed total : Nat)
deriving DecidableEq, Repr

/-- POST /api/import: reject a body without a row array, else run the loop and
write one final system audit record summarising the run. -/
def postImport (s : ServerState) (ctx : ReqCtx)
    (body : Option (List ImportRow × JsVal)) : ImportOut × ServerState :=
  match body with
  | none => (ImportOut.invalid, s)
  | some (rows, categoryId) =>
    let q := runImportRows ctx categoryId s rows
    let log : AuditLog := ⟨"system", "import", "import", ctx.userId, ctx.userName,
      none,
      some [("totalRows", JsVal.vNum rows.length), ("success", JsVal.vNum q.1),
            ("failed", JsVal.vNum q.2.1)],
      none, ctx.ipAddress, ctx.userAgent⟩
    (ImportOut.done q.1 q.2.1 rows.length,
      { q.2.2 with auditLogs := q.2.2.auditLogs ++ [log] })

/-- The loop of POST /api/ad-users/sync over the directory users (each given
as the `userData` record built from the LDAP entry, plus a generated id),
updating the user matched by email or creating a new one. -/
def syncLoop : ServerState → List (Rec × String) → ServerState
  | s, [] => s
  | s, (u, newId) :: rest =>
    match (if jsTruthy (jsGet u "email") then
        s.adUsers.find? (fun r => jsGet r "email" == jsGet u "email")
      else
        none) with
    | some e =>
      syncLoop { s with adUsers := (dbUpdateById (jsGet e "id") u s.adUsers).2 } rest
    | none =>
      syncLoop { s with adUsers := s.adUsers ++ [("id", JsVal.vStr newId) :: u] } rest

/-- POST /api/ad-users/sync: when LDAP is not configured only a simulated-sync
audit record is written; otherwise the user loop runs and one summary audit
record is written. -/
def syncAdUsersH (s : ServerState) (ctx : ReqCtx) (configured : Bool)
    (users : List (Rec × String)) : ServerState :=
  if configured then
    let s1 := syncLoop s users
    { s1 with auditLogs := s1.auditLogs ++
        [⟨"system", "ad-sync", "sync", ctx.userId, ctx.userName, none,
          some [("action", JsVal.vStr "AD Sync completed")], none,
          ctx.ipAddress, ctx.userAgent⟩] }
  else
    { s with auditLogs := s.auditLogs ++
        [⟨"system", "ad-sync", "sync", ctx.userId, ctx.userName, none,
          some [("action", JsVal.vStr "AD Sync triggered (LDAP not configured - simulated)")],
          none, ctx.ipAddress, ctx.userAgent⟩] }

/-- One API call: every route of the server that can change server state,
plus `read_only` for the GET routes, which leave the state unchanged. -/
inductive Step : ServerState → ServerState → Prop where
  | cat_create (s : ServerState) (ctx : ReqCtx) (parsed : Option Rec) (newId : String) :
      Step s (postCategory s ctx parsed newId).2
  | cat_update (s : ServerState) (ctx : ReqCtx) (id : String) (parsed : Option Rec) :
      Step s (patchCategory s ctx id parsed).2
  | cat_delete (s : ServerState) (ctx : ReqCtx) (id : String) :
      Step s (deleteCategoryH s ctx id).2
  | asset_create (s : ServerState) (ctx : ReqCtx) (parsed : Option Rec) (newId : String) :
      Step s (postAsset s ctx parsed newId).2
  | asset_update (s : ServerState) (ctx : ReqCtx) (id : String) (parsed : Option Rec) :
      Step s (patchAsset s ctx id parsed).2
  | asset_delete (s : ServerState) (ctx : ReqCtx) (id : String) :
      Step s (deleteAssetH s ctx id).2
  | user_create (s : ServerState) (ctx : ReqCtx) (parsed : Option Rec) (newId : String) :
      Step s (postAdUser s ctx parsed newId).2
  | user_update (s : ServerState) (ctx : ReqCtx) (id : String) (parsed : Option Rec) :
      Step s (patchAdUser s ctx id parsed).2
  | user_delete (s : ServerState) (ctx : ReqCtx) (id : String) :
      Step s (deleteAdUserH s ctx id).2
  | bulk_rows (s : ServerState) (ctx : ReqCtx) (body : Option (List ImportRow × JsVal)) :
      Step s (postImport s ctx body).2
  | dir_sync (s : ServerState) (ctx : ReqCtx) (configured : Bool)
      (users : List (Rec × String)) : Step s (syncAdUsersH s ctx configured users)
  | read_only (s : ServerState) : Step s s

/-- A state the server can be in, starting from empty tables. -/
def Reachable (s : ServerState) : Prop :=
  Relation.ReflTransGen Step initState s

/-! ### Audit logs only ever grow -/

theorem postCategory_logs (s : ServerState) (ctx : ReqCtx) (parsed : Option Rec)
    (newId : String) :
    ∃ t, (postCategory s ctx parsed newId).2.auditLogs = s.auditLogs ++ t := by
  cases parsed with
  | none => exact ⟨[], by simp [postCategory]⟩
  | some data => exact ⟨_, rfl⟩

theorem patchCategory_logs (s : ServerState) (ctx : ReqCtx) (id : String)
    (parsed : Option Rec) :
    ∃ t, (patchCategory s ctx id parsed).2.auditLogs = s.auditLogs ++ t := by
  unfold patchCategory
  split
  · exact ⟨[], by simp⟩
  · split
    · exact ⟨[], by simp⟩
    · exact ⟨_, rfl⟩

theorem deleteCategoryH_logs (s : ServerState) (ctx : ReqCtx) (id : String) :
    ∃ t, (deleteCategoryH s ctx id).2.auditLogs = s.auditLogs ++ t := by
  unfold deleteCategoryH
  split
  · exact ⟨[], by simp⟩
  · exact ⟨_, rfl⟩

theorem postAsset_logs (s : ServerState) (ctx : ReqCtx) (parsed : Option Rec)
    (newId : String) :
    ∃ t, (postAsset s ctx parsed newId).2.auditLogs = s.auditLogs ++ t := by
  unfold postAsset
  split
  · exact ⟨[], by simp⟩
  · split
    · exact ⟨[], by simp⟩
    · exact ⟨_, rfl⟩

theorem dbUpdateAssetById_some (idv : JsVal) (patch : Rec) (table : List Rec)
    (q : Option Rec × List Rec) (h : dbUpdateAssetById idv patch table = some q) :
    q = dbUpdateById idv patch table := by
  unfold dbUpdateAssetById at h
  split at h
  · exact (Option.some_injective _ h).symm
  · split at h
    · simp at h
    · exact (Option.some_injective _ h).symm

theorem patchAssetApply_logs (s : ServerState) (ctx : ReqCtx) (id : String)
    (existing data : Rec) :
    ∃ t, (patchAssetApply s ctx id existing data).2.auditLogs = s.auditLogs ++ t := by
  unfold patchAssetApply
  split
  · exact ⟨[], by simp⟩
  · exact ⟨_, rfl⟩

theorem patchAsset_logs (s : ServerState) (ctx : ReqCtx) (id : String)
    (parsed : Option Rec) :
    ∃ t, (patchAsset s ctx id parsed).2.auditLogs = s.auditLogs ++ t := by
  unfold patchAsset
  split
  · exact ⟨[], by simp⟩
  · split
    · exact ⟨[], by simp⟩
    · split
      · split
        · exact ⟨[], by simp⟩
        · exact patchAssetApply_logs _ _ _ _ _
      · exact patchAssetApply_logs _ _ _ _ _

theorem deleteAssetH_logs (s : ServerState) (ctx : ReqCtx) (id : String) :
    ∃ t, (deleteAssetH s ctx id).2.auditLogs = s.auditLogs ++ t := by
  unfold deleteAssetH
  split
  · exact ⟨[], by simp⟩
  · exact ⟨_, rfl⟩

theorem postAdUser_logs (s : ServerState) (ctx : ReqCtx) (parsed : Option Rec)
    (newId : String) :
    ∃ t, (postAdUser s ctx parsed newId).2.auditLogs = s.auditLogs ++ t := by
  cases parsed with
  | none => exact ⟨[], by simp [postAdUser]⟩
  | some data => exact ⟨_, rfl⟩

theorem patchAdUser_logs (s : ServerState) (ctx : ReqCtx) (id : String)
    (parsed : Option Rec) :
    ∃ t, (patchAdUser s ctx id parsed).2.auditLogs = s.auditLogs ++ t := by
  unfold patchAdUser
  split
  · exact ⟨[], by simp⟩
  · split
    · exact ⟨[], by simp⟩
    · exact ⟨_, rfl⟩

theorem deleteAdUserH_logs (s : ServerState) (ctx : ReqCtx) (id : String) :
    ∃ t, (deleteAdUserH s ctx id).2.auditLogs = s.auditLogs ++ t := by
  unfold deleteAdUserH
  split
  · exact ⟨[], by simp⟩
  · exact ⟨_, rfl⟩

theorem processImportRow_logs (s : ServerState) (ctx : ReqCtx) (categoryId : JsVal)
    (r : ImportRow) :
    ∃ t, (processImportRow s ctx categoryId r).2.auditLogs = s.auditLogs ++ t := by
  unfold processImportRow
  split
  · exact ⟨[], by simp⟩
  · split
    · exact ⟨[], by simp⟩
    · split
      · exact ⟨_, rfl⟩
      · exact ⟨[], by simp⟩

theorem runImportRows_logs (ctx : ReqCtx) (categoryId : JsVal) :
    ∀ (rows : List ImportRow) (s : ServerState),
      ∃ t, (runImportRows ctx categoryId s rows).2.2.auditLogs = s.auditLogs ++ t
  | [], s => ⟨[], by simp [runImportRows]⟩
  | r :: rest, s => by
    obtain ⟨t1, h1⟩ := processImportRow_logs s ctx categoryId r
    obtain ⟨t2, h2⟩ :=
      runImportRows_logs ctx categoryId rest (processImportRow s ctx categoryId r).2
    exact ⟨t1 ++ t2, by simp [runImportRows, h2, h1]⟩

theorem postImport_logs (s : ServerState) (ctx : ReqCtx)
    (body : Option (List ImportRow × JsVal)) :
    ∃ t, (postImport s ctx body).2.auditLogs = s.auditLogs ++ t := by
  cases body with
  | none => exact ⟨[], by simp [postImport]⟩
  | some b =>
    obtain ⟨rows, catId⟩ := b
    obtain ⟨t1, h1⟩ := runImportRows_logs ctx catId rows s
    exact ⟨t1 ++ [⟨"system", "import", "import", ctx.userId, ctx.userName, none,
      some [("totalRows", JsVal.vNum rows.length),
            ("success", JsVal.vNum (runImportRows ctx catId s rows).1),
            ("failed", JsVal.vNum (runImportRows ctx catId s rows).2.1)],
      none, ctx.ipAddress, ctx.userAgent⟩], by simp [postImport, h1]⟩

theorem syncLoop_logs :
    ∀ (users : List (Rec × String)) (s : ServerState),
      (syncLoop s users).auditLogs = s.auditLogs
  | [], s => rfl
  | (u, newId) :: rest, s => by
    unfold syncLoop
    split
    · exact syncLoop_logs rest _
    · exact syncLoop_logs rest _

theorem syncAdUsersH_logs (s : ServerState) (ctx : ReqCtx) (configured : Bool)
    (users : List (Rec × String)) :
    ∃ t, (syncAdUsersH s ctx configured users).auditLogs = s.auditLogs ++ t := by
  cases configured with
  | false =>
    exact ⟨[⟨"system", "ad-sync", "sync", ctx.userId, ctx.userName, none,
      some [("action", JsVal.vStr "AD Sync triggered (LDAP not configured - simulated)")],
      none, ctx.ipAddress, ctx.userAgent⟩], by simp [syncAdUsersH]⟩
  | true =>
    exact ⟨[⟨"system", "ad-sync", "sync", ctx.userId, ctx.userName, none,
      some [("action", JsVal.vStr "AD Sync completed")],
      none, ctx.ipAddress, ctx.userAgent⟩], by simp [syncAdUsersH, syncLoop_logs]⟩

theorem step_logs {s s' : ServerState} (h : Step s s') :
    ∃ t, s'.auditLogs = s.auditLogs ++ t := by
  cases h with
  | cat_create ctx parsed newId => exact postCategory_logs s ctx parsed newId
  | cat_update ctx id parsed => exact patchCategory_logs s ctx id parsed
  | cat_delete ctx id => exact deleteCategoryH_logs s ctx id
  | asset_create ctx parsed newId => exact postAsset_logs s ctx parsed newId
  | asset_update ctx id parsed => exact patchAsset_logs s ctx id parsed
  | asset_delete ctx id => exact deleteAssetH_logs s ctx id
  | user_create ctx parsed newId => exact postAdUser_logs s ctx parsed newId
  | user_update ctx id parsed => exact patchAdUser_logs s ctx id parsed
  | user_delete ctx id => exact deleteAdUserH_logs s ctx id
  | bulk_rows ctx body => exact postImport_logs s ctx body
  | dir_sync ctx configured users => exact syncAdUsersH_logs s ctx configured users
  | read_only => exact ⟨[], by simp⟩

/-- C6: audit logs are immutable.  No operation of the server (`Step` covers
every mutating route plus the read-only ones) removes or rewrites an
audit-log record: across any sequence of API calls the audit-log table of the
later state extends the earlier one, so every record, once created, is
present and unchanged in all later states. -/
theorem claim_C6_audit_logs_immutable (s s' : ServerState)
    (h : Relation.ReflTransGen Step s s') :
    (∃ t, s'.auditLogs = s.auditLogs ++ t) ∧
    ∀ l ∈ s.auditLogs, l ∈ s'.auditLogs := by
  induction h with
  | refl => exact ⟨⟨[], by simp⟩, fun l hl => hl⟩
  | tail hab hbc ih =>
    obtain ⟨⟨t1, h1⟩, _⟩ := ih
    obtain ⟨t2, h2⟩ := step_logs hbc
    refine ⟨⟨t1 ++ t2, by rw [h2, h1, List.append_assoc]⟩, ?_⟩
    intro l hl
    rw [h2, h1]
    simp only [List.append_assoc, List.mem_append]
    exact Or.inl hl

/-- A pre-existing audit record and a state holding it, for the C6 witness. -/
def wLog : AuditLog :=
  ⟨"asset", "a0", "create", none, "System", none, none, none, "ip", "ua"⟩

def wStart : ServerState := ⟨[], [], [], [wLog]⟩

/-- The state after one real API call (a category create) on `wStart`. -/
def wNext : ServerState :=
  (postCategory wStart sampleCtx (some [("name", JsVal.vStr "Laptops")]) "c9").2

/-- Witness for C6 on a one-step trace: a category create performed on a
state already holding an audit record leaves that record in place and only
appends to the log (here `wNext.auditLogs` is `[wLog]` plus the create's own
record). -/
theorem claim_C6_audit_logs_immutable_witness :
    ((∃ t, wNext.auditLogs = wStart.auditLogs ++ t) ∧
      ∀ l ∈ wStart.auditLogs, l ∈ wNext.auditLogs) ∧
    wStart.auditLogs = [wLog] ∧ wNext.auditLogs.length = 2 := by
  refine ⟨?_, rfl, by decide⟩
  exact claim_C6_audit_logs_immutable wStart wNext
    (Relation.ReflTransGen.single
      (Step.cat_create wStart sampleCtx (some [("name", JsVal.vStr "Laptops")]) "c9"))

/-! ### Error responses leave the state unchanged (C8) -/

theorem postCategory_err (s : ServerState) (ctx : ReqCtx) (parsed : Option Rec)
    (newId : String) :
    (postCategory s ctx parsed newId).1.isError = true →
    (postCategory s ctx parsed newId).2 = s := by
  cases parsed with
  | none => intro _; rfl
  | some data => intro h; simp [postCategory, ApiOut.isError] at h

theorem patchCategory_err (s : ServerState) (ctx : ReqCtx) (id : String)
    (parsed : Option Rec) :
    (patchCategory s ctx id parsed).1.isError = true →
    (patchCategory s ctx id parsed).2 = s := by
  unfold patchCategory
  split
  · intro _; rfl
  · split
    · intro _; rfl
    · intro h; simp [ApiOut.isError] at h

theorem deleteCategoryH_err (s : ServerState) (ctx : ReqCtx) (id : String) :
    (deleteCategoryH s ctx id).1.isError = true →
    (deleteCategoryH s ctx id).2 = s := by
  unfold deleteCategoryH
  split
  · intro _; rfl
  · intro h; simp [ApiOut.isError] at h

theorem postAsset_err (s : ServerState) (ctx : ReqCtx) (parsed : Option Rec)
    (newId : String) :
    (postAsset s ctx parsed newId).1.isError = true →
    (postAsset s ctx parsed newId).2 = s := by
  unfold postAsset
  split
  · intro _; rfl
  · split
    · intro _; rfl
    · intro h; simp [ApiOut.isError] at h

theorem patchAssetApply_err (s : ServerState) (ctx : ReqCtx) (id : String)
    (existing data : Rec) :
    (patchAssetApply s ctx id existing data).1.isError = true →
    (patchAssetApply s ctx id existing data).2 = s := by
  unfold patchAssetApply
  split
  · intro _; rfl
  · intro h; simp [ApiOut.isError] at h

theorem patchAsset_err (s : ServerState) (ctx : ReqCtx) (id : String)
    (parsed : Option Rec) :
    (patchAsset s ctx id parsed).1.isError = true →
    (patchAsset s ctx id parsed).2 = s := by
  unfold patchAsset
  split
  · intro _; rfl
  · split
    · intro _; rfl
    · split
      · split
        · intro _; rfl
        · exact patchAssetApply_err _ _ _ _ _
      · exact patchAssetApply_err _ _ _ _ _

theorem deleteAssetH_err (s : ServerState) (ctx : ReqCtx) (id : String) :
    (deleteAssetH s ctx id).1.isError = true →
    (deleteAssetH s ctx id).2 = s := by
  unfold deleteAssetH
  split
  · intro _; rfl
  · intro h; simp [ApiOut.isError] at h

theorem postAdUser_err (s : ServerState) (ctx : ReqCtx) (parsed : Option Rec)
    (newId : String) :
    (postAdUser s ctx parsed newId).1.isError = true →
    (postAdUser s ctx parsed newId).2 = s := by
  cases parsed with
  | none => intro _; rfl
  | some data => intro h; simp [postAdUser, ApiOut.isError] at h

theorem patchAdUser_err (s : ServerState) (ctx : ReqCtx) (id : String)
    (parsed : Option Rec) :
    (patchAdUser s ctx id parsed).1.isError = true →
    (patchAdUser s ctx id parsed).2 = s := by
  unfold patchAdUser
  split
  · intro _; rfl
  · split
    · intro _; rfl
    · intro h; simp [ApiOut.isError] at h

theorem deleteAdUserH_err (s : ServerState) (ctx : ReqCtx) (id : String) :
    (deleteAdUserH s ctx id).1.isError = true →
    (deleteAdUserH s ctx id).2 = s := by
  unfold deleteAdUserH
  split
  · intro _; rfl
  · intro h; simp [ApiOut.isError] at h

/-- C8: validation precedes the storage write, and mutating handlers are
atomic on error.  Whenever a create, update or delete handler (or the
bulk-import handler with an invalid body) produces an error response — 400 on
validation failure, 400 on a duplicate asset tag, 404 for a missing entity —
the server state is unchanged: nothing is created, modified or deleted, and
no audit-log record is written. -/
theorem claim_C8_error_atomicity :
    (∀ (s : ServerState) (ctx : ReqCtx) (parsed : Option Rec) (newId : String),
      (postCategory s ctx parsed newId).1.isError = true →
      (postCategory s ctx parsed newId).2 = s) ∧
    (∀ (s : ServerState) (ctx : ReqCtx) (id : String) (parsed : Option Rec),
      (patchCategory s ctx id parsed).1.isError = true →
      (patchCategory s ctx id parsed).2 = s) ∧
    (∀ (s : ServerState) (ctx : ReqCtx) (id : String),
      (deleteCategoryH s ctx id).1.isError = true →
      (deleteCategoryH s ctx id).2 = s) ∧
    (∀ (s : ServerState) (ctx : ReqCtx) (parsed : Option Rec) (newId : String),
      (postAsset s ctx parsed newId).1.isError = true →
      (postAsset s ctx parsed newId).2 = s) ∧
    (∀ (s : ServerState) (ctx : ReqCtx) (id : String) (parsed : Option Rec),
      (patchAsset s ctx id parsed).1.isError = true →
      (patchAsset s ctx id parsed).2 = s) ∧
    (∀ (s : ServerState) (ctx : ReqCtx) (id : String),
      (deleteAssetH s ctx id).1.isError = true →
      (deleteAssetH s ctx id).2 = s) ∧
    (∀ (s : ServerState) (ctx : ReqCtx) (parsed : Option Rec) (newId : String),
      (postAdUser s ctx parsed newId).1.isError = true →
      (postAdUser s ctx parsed newId).2 = s) ∧
    (∀ (s : ServerState) (ctx : ReqCtx) (id : String) (parsed : Option Rec),
      (patchAdUser s ctx id parsed).1.isError = true →
      (patchAdUser s ctx id parsed).2 = s) ∧
    (∀ (s : ServerState) (ctx : ReqCtx) (id : String),
      (deleteAdUserH s ctx id).1.isError = true →
      (deleteAdUserH s ctx id).2 = s) ∧
    (∀ (s : ServerState) (ctx : ReqCtx),
      (postImport s ctx none).1 = ImportOut.invalid ∧ (postImport s ctx none).2 = s) :=
  ⟨postCategory_err, patchCategory_err, deleteCategoryH_err, postAsset_err,
   patchAsset_err, deleteAssetH_err, postAdUser_err, patchAdUser_err,
   deleteAdUserH_err, fun _ _ => ⟨rfl, rfl⟩⟩

/-- Witness for C8: a POST /api/assets call on a state already holding an
asset with tag "T1", with a new request for the same tag, errors out and
leaves the state unchanged. -/
theorem claim_C8_error_atomicity_witness :
    (postAsset ⟨[], [[("id", JsVal.vStr "a1"), ("assetTag", JsVal.vStr "T1")]], [], []⟩
      sampleCtx (some [("assetTag", JsVal.vStr "T1"), ("name", JsVal.vStr "X")]) "a2").2 =
      ⟨[], [[("id", JsVal.vStr "a1"), ("assetTag", JsVal.vStr "T1")]], [], []⟩ :=
  claim_C8_error_atomicity.2.2.2.1
    ⟨[], [[("id", JsVal.vStr "a1"), ("assetTag", JsVal.vStr "T1")]], [], []⟩
    sampleCtx (some [("assetTag", JsVal.vStr "T1"), ("name", JsVal.vStr "X")]) "a2"
    (by decide)

/-! ### Every successful mutation writes exactly one audit record (C1) -/

theorem postCategory_ok (s : ServerState) (ctx : ReqCtx) (parsed : Option Rec)
    (newId : String) (st : Nat) (b : Option Rec) :
    (postCategory s ctx parsed newId).1 = ApiOut.json st b →
    st = 201 ∧ ∃ category, b = some category ∧
      (postCategory s ctx parsed newId).2.categories = s.categories ++ [category] ∧
      (postCategory s ctx parsed newId).2.auditLogs = s.auditLogs ++
        [⟨"category", newId, "create", ctx.userId, ctx.userName, none,
          some category, none, ctx.ipAddress, ctx.userAgent⟩] := by
  intro h
  cases parsed with
  | none => simp [postCategory] at h
  | some data =>
    simp only [postCategory, ApiOut.json.injEq] at h
    obtain ⟨h1, h2⟩ := h
    subst h1
    subst h2
    refine ⟨rfl, ("id", JsVal.vStr newId) :: data, ?_, ?_, ?_⟩ <;>
      (first | trivial | rfl)

theorem patchCategory_ok (s : ServerState) (ctx : ReqCtx) (id : String)
    (parsed : Option Rec) (st : Nat) (b : Option Rec) :
    (patchCategory s ctx id parsed).1 = ApiOut.json st b →
    st = 200 ∧ ∃ existing data,
      getById s.categories (JsVal.vStr id) = some existing ∧
      parsed = some data ∧
      b = (dbUpdateById (JsVal.vStr id) data s.categories).1 ∧
      (patchCategory s ctx id parsed).2.categories =
        (dbUpdateById (JsVal.vStr id) data s.categories).2 ∧
      (patchCategory s ctx id parsed).2.auditLogs = s.auditLogs ++
        [⟨"category", id, "update", ctx.userId, ctx.userName, some existing, b,
          some (getChanges existing data), ctx.ipAddress, ctx.userAgent⟩] := by
  intro h
  unfold patchCategory at h ⊢
  rcases hg : getById s.categories (JsVal.vStr id) with _ | existing <;>
    simp only [hg] at h ⊢
  · simp at h
  · rcases parsed with _ | data
    · simp at h
    · simp only [ApiOut.json.injEq] at h
      obtain ⟨h1, h2⟩ := h
      subst h1
      subst h2
      refine ⟨rfl, existing, data, ?_, ?_, ?_, ?_, ?_⟩ <;> (first | trivial | rfl)

theorem deleteCategoryH_ok (s : ServerState) (ctx : ReqCtx) (id : String)
    (d : Bool) :
    (deleteCategoryH s ctx id).1 = ApiOut.deleteOk d →
    ∃ existing, getById s.categories (JsVal.vStr id) = some existing ∧
      (deleteCategoryH s ctx id).2.categories = dbDeleteById (JsVal.vStr id) s.categories ∧
      (deleteCategoryH s ctx id).2.auditLogs = s.auditLogs ++
        [⟨"category", id, "delete", ctx.userId, ctx.userName, some existing,
          none, none, ctx.ipAddress, ctx.userAgent⟩] := by
  intro h
  unfold deleteCategoryH at h ⊢
  rcases hg : getById s.categories (JsVal.vStr id) with _ | existing <;>
    simp only [hg] at h ⊢
  · simp at h
  · refine ⟨existing, ?_, ?_, ?_⟩ <;> (first | trivial | rfl)

theorem postAsset_ok (s : ServerState) (ctx : ReqCtx) (parsed : Option Rec)
    (newId : String) (st : Nat) (b : Option Rec) :
    (postAsset s ctx parsed newId).1 = ApiOut.json st b →
    st = 201 ∧ ∃ data, parsed = some data ∧
      getAssetByTag s (jsGet data "assetTag") = none ∧
      b = some (("id", JsVal.vStr newId) :: data) ∧
      (postAsset s ctx parsed newId).2.assets =
        s.assets ++ [("id", JsVal.vStr newId) :: data] ∧
      (postAsset s ctx parsed newId).2.auditLogs = s.auditLogs ++
        [⟨"asset", newId, "create", ctx.userId, ctx.userName, none,
          some (("id", JsVal.vStr newId) :: data), none,
          ctx.ipAddress, ctx.userAgent⟩] := by
  intro h
  unfold postAsset at h ⊢
  rcases parsed with _ | data
  · simp at h
  · simp only [] at h ⊢
    rcases hg : getAssetByTag s (jsGet data "assetTag") with _ | a <;>
      simp only [hg] at h ⊢
    · simp only [ApiOut.json.injEq] at h
      obtain ⟨h1, h2⟩ := h
      subst h1
      subst h2
      refine ⟨rfl, data, ?_, ?_, ?_, ?_, ?_⟩ <;> (first | trivial | rfl)
    · simp at h

theorem patchAssetApply_ok (s : ServerState) (ctx : ReqCtx) (id : String)
    (existing data : Rec) (st : Nat) (b : Option Rec) :
    (patchAssetApply s ctx id existing data).1 = ApiOut.json st b →
    st = 200 ∧ b = (dbUpdateById (JsVal.vStr id) data s.assets).1 ∧
    (patchAssetApply s ctx id existing data).2.assets =
      (dbUpdateById (JsVal.vStr id) data s.assets).2 ∧
    (patchAssetApply s ctx id existing data).2.auditLogs = s.auditLogs ++
      [⟨"asset", id, "update", ctx.userId, ctx.userName, some existing, b,
        some (getChanges existing data), ctx.ipAddress, ctx.userAgent⟩] := by
  intro h
  unfold patchAssetApply at h ⊢
  rcases hq : dbUpdateAssetById (JsVal.vStr id) data s.assets with _ | q <;>
    simp only [hq] at h ⊢
  · simp at h
  · have hqe : q = dbUpdateById (JsVal.vStr id) data s.assets :=
      dbUpdateAssetById_some _ _ _ _ hq
    subst hqe
    simp only [ApiOut.json.injEq] at h
    obtain ⟨h1, h2⟩ := h
    subst h1
    subst h2
    refine ⟨?_, ?_, ?_, ?_⟩ <;> (first | trivial | rfl)

theorem patchAsset_ok (s : ServerState) (ctx : ReqCtx) (id : String)
    (parsed : Option Rec) (st : Nat) (b : Option Rec) :
    (patchAsset s ctx id parsed).1 = ApiOut.json st b →
    st = 200 ∧ ∃ existing data,
      getById s.assets (JsVal.vStr id) = some existing ∧
      parsed = some data ∧
      b = (dbUpdateById (JsVal.vStr id) data s.assets).1 ∧
      (patchAsset s ctx id parsed).2.assets =
        (dbUpdateById (JsVal.vStr id) data s.assets).2 ∧
      (patchAsset s ctx id parsed).2.auditLogs = s.auditLogs ++
        [⟨"asset", id, "update", ctx.userId, ctx.userName, some existing, b,
          some (getChanges existing data), ctx.ipAddress, ctx.userAgent⟩] := by
  intro h
  unfold patchAsset at h ⊢
  rcases hg : getById s.assets (JsVal.vStr id) with _ | existing <;>
    simp only [hg] at h ⊢
  · simp at h
  · rcases parsed with _ | data
    · simp at h
    · simp only [] at h ⊢
      by_cases hc : jsTruthy (jsGet data "assetTag") = true ∧
          jsGet data "assetTag" ≠ jsGet existing "assetTag"
      · rw [if_pos hc] at h ⊢
        rcases ht : getAssetByTag s (jsGet data "assetTag") with _ | a <;>
          simp only [ht] at h ⊢
        · obtain ⟨h1, h2, h3, h4⟩ := patchAssetApply_ok s ctx id existing data st b h
          refine ⟨h1, existing, data, ?_, ?_, ?_, ?_, ?_⟩ <;>
            (first | trivial | rfl | exact h2 | exact h3 | exact h4)
        · simp at h
      · rw [if_neg hc] at h ⊢
        obtain ⟨h1, h2, h3, h4⟩ := patchAssetApply_ok s ctx id existing data st b h
        refine ⟨h1, existing, data, ?_, ?_, ?_, ?_, ?_⟩ <;>
          (first | trivial | rfl | exact h2 | exact h3 | exact h4)

theorem deleteAssetH_ok (s : ServerState) (ctx : ReqCtx) (id : String)
    (d : Bool) :
    (deleteAssetH s ctx id).1 = ApiOut.deleteOk d →
    ∃ existing, getById s.assets (JsVal.vStr id) = some existing ∧
      (deleteAssetH s ctx id).2.assets = dbDeleteById (JsVal.vStr id) s.assets ∧
      (deleteAssetH s ctx id).2.auditLogs = s.auditLogs ++
        [⟨"asset", id, "delete", ctx.userId, ctx.userName, some existing,
          none, none, ctx.ipAddress, ctx.userAgent⟩] := by
  intro h
  unfold deleteAssetH at h ⊢
  rcases hg : getById s.assets (JsVal.vStr id) with _ | existing <;>
    simp only [hg] at h ⊢
  · simp at h
  · refine ⟨existing, ?_, ?_, ?_⟩ <;> (first | trivial | rfl)

theorem postAdUser_ok (s : ServerState) (ctx : ReqCtx) (parsed : Option Rec)
    (newId : String) (st : Nat) (b : Option Rec) :
    (postAdUser s ctx parsed newId).1 = ApiOut.json st b →
    st = 201 ∧ ∃ user, b = some user ∧
      (postAdUser s ctx parsed newId).2.adUsers = s.adUsers ++ [user] ∧
      (postAdUser s ctx parsed newId).2.auditLogs = s.auditLogs ++
        [⟨"user", newId, "create", ctx.userId, ctx.userName, none,
          some user, none, ctx.ipAddress, ctx.userAgent⟩] := by
  intro h
  cases parsed with
  | none => simp [postAdUser] at h
  | some data =>
    simp only [postAdUser, ApiOut.json.injEq] at h
    obtain ⟨h1, h2⟩ := h
    subst h1
    subst h2
    refine ⟨rfl, ("id", JsVal.vStr newId) :: data, ?_, ?_, ?_⟩ <;>
      (first | trivial | rfl)

theorem patchAdUser_ok (s : ServerState) (ctx : ReqCtx) (id : String)
    (parsed : Option Rec) (st : Nat) (b : Option Rec) :
    (patchAdUser s ctx id parsed).1 = ApiOut.json st b →
    st = 200 ∧ ∃ existing data,
      getById s.adUsers (JsVal.vStr id) = some existing ∧
      parsed = some data ∧
      b = (dbUpdateById (JsVal.vStr id) data s.adUsers).1 ∧
      (patchAdUser s ctx id parsed).2.adUsers =
        (dbUpdateById (JsVal.vStr id) data s.adUsers).2 ∧
      (patchAdUser s ctx id parsed).2.auditLogs = s.auditLogs ++
        [⟨"user", id, "update", ctx.userId, ctx.userName, some existing, b,
          some (getChanges existing data), ctx.ipAddress, ctx.userAgent⟩] := by
  intro h
  unfold patchAdUser at h ⊢
  rcases hg : getById s.adUsers (JsVal.vStr id) with _ | existing <;>
    simp only [hg] at h ⊢
  · simp at h
  · rcases parsed with _ | data
    · simp at h
    · simp only [ApiOut.json.injEq] at h
      obtain ⟨h1, h2⟩ := h
      subst h1
      subst h2
      refine ⟨rfl, existing, data, ?_, ?_, ?_, ?_, ?_⟩ <;> (first | trivial | rfl)

theorem deleteAdUserH_ok (s : ServerState) (ctx : ReqCtx) (id : String)
    (d : Bool) :
    (deleteAdUserH s ctx id).1 = ApiOut.deleteOk d →
    ∃ existing, getById s.adUsers (JsVal.vStr id) = some existing ∧
      (deleteAdUserH s ctx id).2.adUsers = dbDeleteById (JsVal.vStr id) s.adUsers ∧
      (deleteAdUserH s ctx id).2.auditLogs = s.auditLogs ++
        [⟨"user", id, "delete", ctx.userId, ctx.userName, some existing,
          none, none, ctx.ipAddress, ctx.userAgent⟩] := by
  intro h
  unfold deleteAdUserH at h ⊢
  rcases hg : getById s.adUsers (JsVal.vStr id) with _ | existing <;>
    simp only [hg] at h ⊢
  · simp at h
  · refine ⟨existing, ?_, ?_, ?_⟩ <;> (first | trivial | rfl)

theorem processImportRow_ok (s : ServerState) (ctx : ReqCtx) (catId : JsVal)
    (r : ImportRow) :
    (processImportRow s ctx catId r).1 = true →
    jsTruthy (jsGet r.row "assetTag") = true ∧
    jsTruthy (jsGet r.row "name") = true ∧
    getAssetByTag s (jsGet r.row "assetTag") = none ∧
    r.storageOk = true ∧
    (processImportRow s ctx catId r).2.assets =
      s.assets ++ [("id", JsVal.vStr r.newId) :: importAssetData r.row catId] ∧
    (processImportRow s ctx catId r).2.auditLogs = s.auditLogs ++
      [⟨"asset", r.newId, "create", ctx.userId, ctx.userName, none,
        some ((("id", JsVal.vStr r.newId) :: importAssetData r.row catId) ++
          [("source", JsVal.vStr "import")]),
        none, ctx.ipAddress, ctx.userAgent⟩] := by
  intro h
  unfold processImportRow at h ⊢
  by_cases h1 : (!jsTruthy (jsGet r.row "assetTag") || !jsTruthy (jsGet r.row "name")) = true
  · rw [if_pos h1] at h
    simp at h
  · rw [if_neg h1] at h ⊢
    simp only [Bool.or_eq_true, Bool.not_eq_true'] at h1
    push_neg at h1
    obtain ⟨ha, hb⟩ := h1
    rcases hg : getAssetByTag s (jsGet r.row "assetTag") with _ | a <;>
      simp only [hg] at h ⊢
    · rcases hok : r.storageOk with _ | _ <;> simp only [hok] at h ⊢
      · simp at h
      · refine ⟨?_, ?_, ?_, ?_, ?_, ?_⟩ <;>
          (first | trivial | rfl | simpa using ha | simpa using hb)
    · simp at h

/-- C1: every successful mutating call writes exactly one audit record as
part of handling the call.  For each create/update/delete handler on
categories, assets and directory users, and for each row the bulk import
creates, a successful outcome appends exactly one record to the audit table:
a create stores the created record as `newData`; an update stores the old
record as `previousData`, the updated record as `newData`, and
`getChanges(old, patch)` as `changes`; a delete stores the old record as
`previousData`. -/
theorem claim_C1_audit_writes :
    (∀ (s : ServerState) (ctx : ReqCtx) (parsed : Option Rec) (newId : String)
        (st : Nat) (b : Option Rec),
      (postCategory s ctx parsed newId).1 = ApiOut.json st b →
      st = 201 ∧ ∃ category, b = some category ∧
        (postCategory s ctx parsed newId).2.categories = s.categories ++ [category] ∧
        (postCategory s ctx parsed newId).2.auditLogs = s.auditLogs ++
          [⟨"category", newId, "create", ctx.userId, ctx.userName, none,
            some category, none, ctx.ipAddress, ctx.userAgent⟩]) ∧
    (∀ (s : ServerState) (ctx : ReqCtx) (id : String) (parsed : Option Rec)
        (st : Nat) (b : Option Rec),
      (patchCategory s ctx id parsed).1 = ApiOut.json st b →
      st = 200 ∧ ∃ existing data,
        getById s.categories (JsVal.vStr id) = some existing ∧
        parsed = some data ∧
        b = (dbUpdateById (JsVal.vStr id) data s.categories).1 ∧
        (patchCategory s ctx id parsed).2.categories =
          (dbUpdateById (JsVal.vStr id) data s.categories).2 ∧
        (patchCategory s ctx id parsed).2.auditLogs = s.auditLogs ++
          [⟨"category", id, "update", ctx.userId, ctx.userName, some existing, b,
            some (getChanges existing data), ctx.ipAddress, ctx.userAgent⟩]) ∧
    (∀ (s : ServerState) (ctx : ReqCtx) (id : String) (d : Bool),
      (deleteCategoryH s ctx id).1 = ApiOut.deleteOk d →
      ∃ existing, getById s.categories (JsVal.vStr id) = some existing ∧
        (deleteCategoryH s ctx id).2.categories = dbDeleteById (JsVal.vStr id) s.categories ∧
        (deleteCategoryH s ctx id).2.auditLogs = s.auditLogs ++
          [⟨"category", id, "delete", ctx.userId, ctx.userName, some existing,
            none, none, ctx.ipAddress, ctx.userAgent⟩]) ∧
    (∀ (s : ServerState) (ctx : ReqCtx) (parsed : Option Rec) (newId : String)
        (st : Nat) (b : Option Rec),
      (postAsset s ctx parsed newId).1 = ApiOut.json st b →
      st = 201 ∧ ∃ data, parsed = some data ∧
        getAssetByTag s (jsGet data "assetTag") = none ∧
        b = some (("id", JsVal.vStr newId) :: data) ∧
        (postAsset s ctx parsed newId).2.assets =
          s.assets ++ [("id", JsVal.vStr newId) :: data] ∧
        (postAsset s ctx parsed newId).2.auditLogs = s.auditLogs ++
          [⟨"asset", newId, "create", ctx.userId, ctx.userName, none,
            some (("id", JsVal.vStr newId) :: data), none,
            ctx.ipAddress, ctx.userAgent⟩]) ∧
    (∀ (s : ServerState) (ctx : ReqCtx) (id : String) (parsed : Option Rec)
        (st : Nat) (b : Option Rec),
      (patchAsset s ctx id parsed).1 = ApiOut.json st b →
      st = 200 ∧ ∃ existing data,
        getById s.assets (JsVal.vStr id) = some existing ∧
        parsed = some data ∧
        b = (dbUpdateById (JsVal.vStr id) data s.assets).1 ∧
        (patchAsset s ctx id parsed).2.assets =
          (dbUpdateById (JsVal.vStr id) data s.assets).2 ∧
        (patchAsset s ctx id parsed).2.auditLogs = s.auditLogs ++
          [⟨"asset", id, "update", ctx.userId, ctx.userName, some existing, b,
            some (getChanges existing data), ctx.ipAddress, ctx.userAgent⟩]) ∧
    (∀ (s : ServerState) (ctx : ReqCtx) (id : String) (d : Bool),
      (deleteAssetH s ctx id).1 = ApiOut.deleteOk d →
      ∃ existing, getById s.assets (JsVal.vStr id) = some existing ∧
        (deleteAssetH s ctx id).2.assets = dbDeleteById (JsVal.vStr id) s.assets ∧
        (deleteAssetH s ctx id).2.auditLogs = s.auditLogs ++
          [⟨"asset", id, "delete", ctx.userId, ctx.userName, some existing,
            none, none, ctx.ipAddress, ctx.userAgent⟩]) ∧
    (∀ (s : ServerState) (ctx : ReqCtx) (parsed : Option Rec) (newId : String)
        (st : Nat) (b : Option Rec),
      (postAdUser s ctx parsed newId).1 = ApiOut.json st b →
      st = 201 ∧ ∃ user, b = some user ∧
        (postAdUser s ctx parsed newId).2.adUsers = s.adUsers ++ [user] ∧
        (postAdUser s ctx parsed newId).2.auditLogs = s.auditLogs ++
          [⟨"user", newId, "create", ctx.userId, ctx.userName, none,
            some user, none, ctx.ipAddress, ctx.userAgent⟩]) ∧
    (∀ (s : ServerState) (ctx : ReqCtx) (id : String) (parsed : Option Rec)
        (st : Nat) (b : Option Rec),
      (patchAdUser s ctx id parsed).1 = ApiOut.json st b →
      st = 200 ∧ ∃ existing data,
        getById s.adUsers (JsVal.vStr id) = some existing ∧
        parsed = some data ∧
        b = (dbUpdateById (JsVal.vStr id) data s.adUsers).1 ∧
        (patchAdUser s ctx id parsed).2.adUsers =
          (dbUpdateById (JsVal.vStr id) data s.adUsers).2 ∧
        (patchAdUser s ctx id parsed).2.auditLogs = s.auditLogs ++
          [⟨"user", id, "update", ctx.userId, ctx.userName, some existing, b,
            some (getChanges existing data), ctx.ipAddress, ctx.userAgent⟩]) ∧
    (∀ (s : ServerState) (ctx : ReqCtx) (id : String) (d : Bool),
      (deleteAdUserH s ctx id).1 = ApiOut.deleteOk d →
      ∃ existing, getById s.adUsers (JsVal.vStr id) = some existing ∧
        (deleteAdUserH s ctx id).2.adUsers = dbDeleteById (JsVal.vStr id) s.adUsers ∧
        (deleteAdUserH s ctx id).2.auditLogs = s.auditLogs ++
          [⟨"user", id, "delete", ctx.userId, ctx.userName, some existing,
            none, none, ctx.ipAddress, ctx.userAgent⟩]) ∧
    (∀ (s : ServerState) (ctx : ReqCtx) (catId : JsVal) (r : ImportRow),
      (processImportRow s ctx catId r).1 = true →
      jsTruthy (jsGet r.row "assetTag") = true ∧
      jsTruthy (jsGet r.row "name") = true ∧
      getAssetByTag s (jsGet r.row "assetTag") = none ∧
      r.storageOk = true ∧
      (processImportRow s ctx catId r).2.assets =
        s.assets ++ [("id", JsVal.vStr r.newId) :: importAssetData r.row catId] ∧
      (processImportRow s ctx catId r).2.auditLogs = s.auditLogs ++
        [⟨"asset", r.newId, "create", ctx.userId, ctx.userName, none,
          some ((("id", JsVal.vStr r.newId) :: importAssetData r.row catId) ++
            [("source", JsVal.vStr "import")]),
          none, ctx.ipAddress, ctx.userAgent⟩]) :=
  ⟨postCategory_ok, patchCategory_ok, deleteCategoryH_ok, postAsset_ok,
   patchAsset_ok, deleteAssetH_ok, postAdUser_ok, patchAdUser_ok,
   deleteAdUserH_ok, processImportRow_ok⟩

/-- Witness for C1: a concrete successful category create appends exactly the
one expected audit record. -/
theorem claim_C1_audit_writes_witness :
    (201 : Nat) = 201 ∧ ∃ category,
      (some [("id", JsVal.vStr "c1"), ("name", JsVal.vStr "Laptops")] : Option Rec) =
        some category ∧
      (postCategory initState sampleCtx (some [("name", JsVal.vStr "Laptops")]) "c1").2.categories =
        initState.categories ++ [category] ∧
      (postCategory initState sampleCtx (some [("name", JsVal.vStr "Laptops")]) "c1").2.auditLogs =
        initState.auditLogs ++
          [⟨"category", "c1", "create", sampleCtx.userId, sampleCtx.userName, none,
            some category, none, sampleCtx.ipAddress, sampleCtx.userAgent⟩] :=
  claim_C1_audit_writes.1 initState sampleCtx (some [("name", JsVal.vStr "Laptops")])
    "c1" 201 (some [("id", JsVal.vStr "c1"), ("name", JsVal.vStr "Laptops")]) rfl

/-! ### Asset-tag uniqueness (C3) -/

/-- No two assets carry the same `assetTag` (the schema's UNIQUE column). -/
def TagInv (s : ServerState) : Prop :=
  (s.assets.map tagOf).Nodup

theorem jsGet_cons (k' k : String) (v : JsVal) (r : Rec) :
    jsGet ((k, v) :: r) k' = if k' = k then v else jsGet r k' := by
  by_cases h : k' = k
  · have hb : (k' == k) = true := by simpa using h
    simp [jsGet, List.lookup, hb, h]
  · have hb : (k' == k) = false := by simpa using h
    simp [jsGet, List.lookup, hb, h]

theorem dbUpdateById_split (idv : JsVal) (patch : Rec) :
    ∀ l : List Rec,
      (l.find? (fun r => jsGet r "id" == idv) = none ∧
        dbUpdateById idv patch l = (none, l)) ∨
      (∃ l₁ r l₂, l = l₁ ++ r :: l₂ ∧ (∀ x ∈ l₁, ¬((jsGet x "id" == idv) = true)) ∧
        l.find? (fun r => jsGet r "id" == idv) = some r ∧
        dbUpdateById idv patch l = (some (recUpdate r patch), l₁ ++ recUpdate r patch :: l₂))
  | [] => Or.inl ⟨rfl, rfl⟩
  | a :: l => by
    by_cases ha : (jsGet a "id" == idv) = true
    · refine Or.inr ⟨[], a, l, rfl, by simp, ?_, ?_⟩
      · simp [List.find?_cons, ha]
      · simp [dbUpdateById, ha]
    · rcases dbUpdateById_split idv patch l with ⟨h1, h2⟩ | ⟨l₁, r, l₂, hl, hl₁, hf, hu⟩
      · refine Or.inl ⟨?_, ?_⟩
        · simp [List.find?_cons, ha, h1]
        · simp [dbUpdateById, ha, h2]
      · refine Or.inr ⟨a :: l₁, r, l₂, by simp [hl], ?_, ?_, ?_⟩
        · intro x hx
          rcases List.mem_cons.mp hx with rfl | hx'
          · exact fun hc => ha hc
          · exact hl₁ x hx'
        · simp [List.find?_cons, ha, hf]
        · simp [dbUpdateById, ha, hu]

theorem middle_nodup {α : Type} (F₁ G F₂ : List α)
    (h : (F₁ ++ (G ++ F₂)).Nodup) : (F₁ ++ F₂).Nodup :=
  List.Nodup.sublist
    ((List.Sublist.refl F₁).append ((List.nil_sublist G).append (List.Sublist.refl F₂))) h

theorem insert_middle_nodup {α : Type} [DecidableEq α] (F₁ F₂ : List α) (t : α)
    (h : (F₁ ++ F₂).Nodup) (ht : t ∉ F₁ ++ F₂) : (F₁ ++ t :: F₂).Nodup := by
  rw [List.nodup_middle]
  exact List.nodup_cons.mpr ⟨ht, h⟩

theorem find?_none_tags (s : ServerState) (t : JsVal)
    (h : getAssetByTag s t = none) : ∀ a ∈ s.assets, tagOf a ≠ t := by
  intro a ha
  have := List.find?_eq_none.mp h a ha
  simpa [tagOf] using this

/-- Erasing the first match of a list split around it. -/
theorem eraseP_split {α : Type} (p : α → Bool) :
    ∀ (l₁ : List α) (r : α) (l₂ : List α), (∀ x ∈ l₁, ¬(p x = true)) → p r = true →
      (l₁ ++ r :: l₂).eraseP p = l₁ ++ l₂
  | [], r, l₂, _, hr => by simp [List.eraseP_cons_of_pos hr]
  | a :: l₁, r, l₂, h₁, hr => by
    rw [List.cons_append, List.eraseP_cons_of_neg (h₁ a (List.mem_cons_self a _)),
      eraseP_split p l₁ r l₂ (fun x hx => h₁ x (List.mem_cons_of_mem a hx)) hr,
      List.cons_append]

/-- Appending an asset whose tag occurs on no existing asset preserves tag
uniqueness of the asset table. -/
theorem tagInv_snoc (l : List Rec) (asset : Rec)
    (hinv : (l.map tagOf).Nodup)
    (hfresh : ∀ a ∈ l, tagOf a ≠ tagOf asset) :
    ((l ++ [asset]).map tagOf).Nodup := by
  rw [List.map_append, List.map_cons, List.map_nil]
  refine insert_middle_nodup (l.map tagOf) [] (tagOf asset) (by simpa using hinv) ?_
  intro hmem
  simp only [List.append_nil] at hmem
  obtain ⟨a, ha, hta⟩ := List.mem_map.mp hmem
  exact hfresh a ha hta

theorem postCategory_assets (s : ServerState) (ctx : ReqCtx) (parsed : Option Rec)
    (newId : String) : (postCategory s ctx parsed newId).2.assets = s.assets := by
  cases parsed <;> rfl

theorem patchCategory_assets (s : ServerState) (ctx : ReqCtx) (id : String)
    (parsed : Option Rec) : (patchCategory s ctx id parsed).2.assets = s.assets := by
  unfold patchCategory
  split
  · rfl
  · split <;> rfl

theorem deleteCategoryH_assets (s : ServerState) (ctx : ReqCtx) (id : String) :
    (deleteCategoryH s ctx id).2.assets = s.assets := by
  unfold deleteCategoryH
  split <;> rfl

theorem postAdUser_assets (s : ServerState) (ctx : ReqCtx) (parsed : Option Rec)
    (newId : String) : (postAdUser s ctx parsed newId).2.assets = s.assets := by
  cases parsed <;> rfl

theorem patchAdUser_assets (s : ServerState) (ctx : ReqCtx) (id : String)
    (parsed : Option Rec) : (patchAdUser s ctx id parsed).2.assets = s.assets := by
  unfold patchAdUser
  split
  · rfl
  · split <;> rfl

theorem deleteAdUserH_assets (s : ServerState) (ctx : ReqCtx) (id : String) :
    (deleteAdUserH s ctx id).2.assets = s.assets := by
  unfold deleteAdUserH
  split <;> rfl

theorem syncLoop_assets :
    ∀ (users : List (Rec × String)) (s : ServerState),
      (syncLoop s users).assets = s.assets
  | [], s => rfl
  | (u, newId) :: rest, s => by
    unfold syncLoop
    split
    · exact syncLoop_assets rest _
    · exact syncLoop_assets rest _

theorem syncAdUsersH_assets (s : ServerState) (ctx : ReqCtx) (configured : Bool)
    (users : List (Rec × String)) :
    (syncAdUsersH s ctx configured users).assets = s.assets := by
  cases configured <;> simp [syncAdUsersH, syncLoop_assets]

theorem postAsset_tagInv (s : ServerState) (ctx : ReqCtx) (parsed : Option Rec)
    (newId : String) (hinv : TagInv s) : TagInv (postAsset s ctx parsed newId).2 := by
  unfold postAsset
  cases parsed with
  | none => exact hinv
  | some data =>
    simp only []
    rcases hg : getAssetByTag s (jsGet data "assetTag") with _ | a <;>
      simp only [hg]
    · unfold TagInv
      refine tagInv_snoc s.assets _ hinv ?_
      intro a ha
      have hfr := find?_none_tags s (jsGet data "assetTag") hg a ha
      have htag : tagOf (("id", JsVal.vStr newId) :: data) = jsGet data "assetTag" := by
        simp [tagOf, jsGet_cons]
      rw [htag]
      exact hfr
    · exact hinv

/-- The committed asset UPDATE preserves tag uniqueness: the unique-constraint
check of `dbUpdateAssetById` has already compared the updated row's resulting
tag against every other row. -/
theorem patchAssetApply_tagInv (s : ServerState) (ctx : ReqCtx) (id : String)
    (existing data : Rec) (hinv : TagInv s) :
    TagInv (patchAssetApply s ctx id existing data).2 := by
  unfold patchAssetApply
  rcases hq : dbUpdateAssetById (JsVal.vStr id) data s.assets with _ | q <;>
    simp only [hq]
  · exact hinv
  · have hqe : q = dbUpdateById (JsVal.vStr id) data s.assets :=
      dbUpdateAssetById_some _ _ _ _ hq
    unfold TagInv
    show ((q.2).map tagOf).Nodup
    rcases dbUpdateById_split (JsVal.vStr id) data s.assets with ⟨hf, hu⟩ |
      ⟨l₁, r, l₂, hl, hl₁, hf, hu⟩
    · rw [hqe]
      simp only [hu]
      exact hinv
    · have hnc : ((s.assets.eraseP (fun x => jsGet x "id" == JsVal.vStr id)).any
          (fun a => tagOf a == tagOf (recUpdate r data))) = false := by
        unfold dbUpdateAssetById at hq
        simp only [hf] at hq
        by_cases hany : ((s.assets.eraseP (fun x => jsGet x "id" == JsVal.vStr id)).any
            (fun a => tagOf a == tagOf (recUpdate r data))) = true
        · rw [if_pos hany] at hq
          simp at hq
        · simpa using hany
      have herase : s.assets.eraseP (fun x => jsGet x "id" == JsVal.vStr id) =
          l₁ ++ l₂ := by
        rw [hl]
        refine eraseP_split _ l₁ r l₂ hl₁ ?_
        have hpr := List.find?_some hf
        simpa using hpr
      rw [herase] at hnc
      have hfresh : ∀ a ∈ l₁ ++ l₂, tagOf a ≠ tagOf (recUpdate r data) := by
        intro a ha hta
        have : ((l₁ ++ l₂).any (fun a => tagOf a == tagOf (recUpdate r data))) = true :=
          List.any_eq_true.mpr ⟨a, ha, by simpa using hta⟩
        rw [hnc] at this
        simp at this
      rw [hqe]
      simp only [hu]
      rw [List.map_append, List.map_cons]
      refine insert_middle_nodup _ _ _ ?_ ?_
      · have hinv2 : ((l₁ ++ r :: l₂).map tagOf).Nodup := by
          rw [← hl]
          exact hinv
        rw [List.map_append, List.map_cons] at hinv2
        exact middle_nodup _ [tagOf r] _ (by simpa using hinv2)
      · intro hmem
        rw [← List.map_append] at hmem
        obtain ⟨a, ha, hta⟩ := List.mem_map.mp hmem
        exact hfresh a ha hta

theorem patchAsset_tagInv (s : ServerState) (ctx : ReqCtx) (id : String)
    (parsed : Option Rec) (hinv : TagInv s) : TagInv (patchAsset s ctx id parsed).2 := by
  unfold patchAsset
  rcases hg : getById s.assets (JsVal.vStr id) with _ | existing <;> simp only [hg]
  · exact hinv
  · rcases parsed with _ | data
    · exact hinv
    · simp only []
      by_cases hc : jsTruthy (jsGet data "assetTag") = true ∧
          jsGet data "assetTag" ≠ jsGet existing "assetTag"
      · rw [if_pos hc]
        rcases ht : getAssetByTag s (jsGet data "assetTag") with _ | a <;>
          simp only [ht]
        · exact patchAssetApply_tagInv s ctx id existing data hinv
        · exact hinv
      · rw [if_neg hc]
        exact patchAssetApply_tagInv s ctx id existing data hinv

theorem deleteAssetH_tagInv (s : ServerState) (ctx : ReqCtx) (id : String)
    (hinv : TagInv s) : TagInv (deleteAssetH s ctx id).2 := by
  unfold deleteAssetH
  rcases hg : getById s.assets (JsVal.vStr id) with _ | existing <;> simp only [hg]
  · exact hinv
  · unfold TagInv dbDeleteById
    exact List.Nodup.sublist ((List.filter_sublist _).map tagOf) hinv

theorem processImportRow_tagInv (s : ServerState) (ctx : ReqCtx) (catId : JsVal)
    (r : ImportRow) (hinv : TagInv s) : TagInv (processImportRow s ctx catId r).2 := by
  unfold processImportRow
  split
  · exact hinv
  · rcases hg : getAssetByTag s (jsGet r.row "assetTag") with _ | a <;> simp only [hg]
    · split
      · unfold TagInv
        refine tagInv_snoc s.assets _ hinv ?_
        intro a ha
        have hfr := find?_none_tags s (jsGet r.row "assetTag") hg a ha
        have htag : tagOf (("id", JsVal.vStr r.newId) :: importAssetData r.row catId) =
            jsGet r.row "assetTag" := by
          simp [tagOf, jsGet_cons, importAssetData, jsGet_cons]
        rw [htag]
        exact hfr
      · exact hinv
    · exact hinv

theorem runImportRows_tagInv (ctx : ReqCtx) (catId : JsVal) :
    ∀ (rows : List ImportRow) (s : ServerState), TagInv s →
      TagInv (runImportRows ctx catId s rows).2.2
  | [], s, hinv => hinv
  | r :: rest, s, hinv => by
    simp only [runImportRows]
    exact runImportRows_tagInv ctx catId rest _
      (processImportRow_tagInv s ctx catId r hinv)

theorem postImport_tagInv (s : ServerState) (ctx : ReqCtx)
    (body : Option (List ImportRow × JsVal)) (hinv : TagInv s) :
    TagInv (postImport s ctx body).2 := by
  cases body with
  | none => exact hinv
  | some b =>
    obtain ⟨rows, catId⟩ := b
    have h := runImportRows_tagInv ctx catId rows s hinv
    unfold TagInv at h ⊢
    simpa [postImport] using h

theorem tagInv_of_assets_eq {s s' : ServerState} (h : s'.assets = s.assets)
    (hinv : TagInv s) : TagInv s' := by
  unfold TagInv at hinv ⊢
  rw [h]
  exact hinv

theorem step_tagInv {s s' : ServerState} (h : Step s s') (hinv : TagInv s) :
    TagInv s' := by
  cases h with
  | cat_create ctx parsed newId =>
    exact tagInv_of_assets_eq (postCategory_assets s ctx parsed newId) hinv
  | cat_update ctx id parsed =>
    exact tagInv_of_assets_eq (patchCategory_assets s ctx id parsed) hinv
  | cat_delete ctx id =>
    exact tagInv_of_assets_eq (deleteCategoryH_assets s ctx id) hinv
  | asset_create ctx parsed newId => exact postAsset_tagInv s ctx parsed newId hinv
  | asset_update ctx id parsed => exact patchAsset_tagInv s ctx id parsed hinv
  | asset_delete ctx id => exact deleteAssetH_tagInv s ctx id hinv
  | user_create ctx parsed newId =>
    exact tagInv_of_assets_eq (postAdUser_assets s ctx parsed newId) hinv
  | user_update ctx id parsed =>
    exact tagInv_of_assets_eq (patchAdUser_assets s ctx id parsed) hinv
  | user_delete ctx id =>
    exact tagInv_of_assets_eq (deleteAdUserH_assets s ctx id) hinv
  | bulk_rows ctx body => exact postImport_tagInv s ctx body hinv
  | dir_sync ctx configured users =>
    exact tagInv_of_assets_eq (syncAdUsersH_assets s ctx configured users) hinv
  | read_only => exact hinv

/-- The three-call trace behind the C3 counterexample: create assets "T1" and
"T2", then PATCH the second one to the empty asset tag (its truthiness guard
is skipped, and the empty tag is still unique, so the update commits). -/
def cexS1 : ServerState :=
  (postAsset initState sampleCtx
    (some [("assetTag", JsVal.vStr "T1"), ("name", JsVal.vStr "Laptop")]) "a1").2

def cexS2 : ServerState :=
  (postAsset cexS1 sampleCtx
    (some [("assetTag", JsVal.vStr "T2"), ("name", JsVal.vStr "Phone")]) "a2").2

def cexS3 : ServerState :=
  (patchAsset cexS2 sampleCtx "a2" (some [("assetTag", JsVal.vStr "")])).2

/-- C3 counterexample: a PATCH changing an asset's tag to the empty string —
a value already used by another asset — is NOT answered with the claimed 400
"Asset tag already exists": the handler's duplicate-tag guard tests the
requested tag for JS truthiness first (`data.assetTag && ...`) and is skipped
for the falsy empty string, so the UPDATE reaches the database, whose UNIQUE
`asset_tag` constraint rejects it; the catch answers 500 "Failed to update
asset" (state unchanged). -/
theorem claim_C3_counterexample :
    Reachable cexS3 ∧
    getById cexS3.assets (JsVal.vStr "a1") =
      some [("id", JsVal.vStr "a1"), ("assetTag", JsVal.vStr "T1"),
        ("name", JsVal.vStr "Laptop")] ∧
    (∃ a, getAssetByTag cexS3 (JsVal.vStr "") = some a ∧
      jsGet a "id" = JsVal.vStr "a2") ∧
    (patchAsset cexS3 sampleCtx "a1" (some [("assetTag", JsVal.vStr "")])).1 =
      ApiOut.error 500 "Failed to update asset" ∧
    (patchAsset cexS3 sampleCtx "a1" (some [("assetTag", JsVal.vStr "")])).1 ≠
      ApiOut.error 400 "Asset tag already exists" ∧
    (patchAsset cexS3 sampleCtx "a1" (some [("assetTag", JsVal.vStr "")])).2 = cexS3 := by
  refine ⟨?_, by decide,
    ⟨[("id", JsVal.vStr "a2"), ("assetTag", JsVal.vStr ""), ("name", JsVal.vStr "Phone")],
      by decide, by decide⟩,
    by decide, by decide, by decide⟩
  have h1 : Step initState cexS1 := Step.asset_create initState sampleCtx _ "a1"
  have h2 : Step cexS1 cexS2 := Step.asset_create cexS1 sampleCtx _ "a2"
  have h3 : Step cexS2 cexS3 := Step.asset_update cexS2 sampleCtx "a2" _
  exact Relation.ReflTransGen.tail
    (Relation.ReflTransGen.tail (Relation.ReflTransGen.single h1) h2) h3

/-- C3 amended: POST /api/assets rejects any request whose tag is already in
use with 400 "Asset tag already exists" and an unchanged state; PATCH
/api/assets/:id does the same whenever the request changes the tag to a
TRUTHY (non-empty) value already in use, while for a falsy requested tag the
handler guard is skipped and a duplicating update is instead rejected by the
database's UNIQUE `asset_tag` constraint as a 500 "Failed to update asset"
with an unchanged state; consequently, in every reachable state no two assets
share an `assetTag`. -/
theorem claim_C3_amended :
    (∀ (s : ServerState) (ctx : ReqCtx) (data : Rec) (newId : String),
      (∃ a, getAssetByTag s (jsGet data "assetTag") = some a) →
      postAsset s ctx (some data) newId =
        (ApiOut.error 400 "Asset tag already exists", s)) ∧
    (∀ (s : ServerState) (ctx : ReqCtx) (id : String) (data existing : Rec),
      getById s.assets (JsVal.vStr id) = some existing →
      jsTruthy (jsGet data "assetTag") = true →
      jsGet data "assetTag" ≠ jsGet existing "assetTag" →
      (∃ a, getAssetByTag s (jsGet data "assetTag") = some a) →
      patchAsset s ctx id (some data) =
        (ApiOut.error 400 "Asset tag already exists", s)) ∧
    (∀ (s : ServerState) (ctx : ReqCtx) (id : String) (data existing : Rec),
      getById s.assets (JsVal.vStr id) = some existing →
      ¬(jsTruthy (jsGet data "assetTag") = true ∧
        jsGet data "assetTag" ≠ jsGet existing "assetTag") →
      dbUpdateAssetById (JsVal.vStr id) data s.assets = none →
      patchAsset s ctx id (some data) =
        (ApiOut.error 500 "Failed to update asset", s)) ∧
    (∀ s : ServerState, Reachable s → TagInv s) := by
  refine ⟨?_, ?_, ?_, ?_⟩
  · intro s ctx data newId ⟨a, ha⟩
    unfold postAsset
    simp only [ha]
  · intro s ctx id data existing hex ht hne ⟨a, ha⟩
    unfold patchAsset
    simp only [hex]
    rw [if_pos ⟨ht, hne⟩]
    simp only [ha]
  · intro s ctx id data existing hex hng hup
    unfold patchAsset
    simp only [hex]
    rw [if_neg hng]
    unfold patchAssetApply
    simp only [hup]
  · intro s hs
    unfold Reachable at hs
    induction hs with
    | refl => exact List.Pairwise.nil
    | tail hab hbc ih => exact step_tagInv hbc ih

/-- Witness for C3 amended: a duplicate-tag POST against a state holding the
tag "T1" errors out with the state unchanged; the empty-tag duplicate PATCH
on the reachable state `cexS3` is rejected by the unique constraint as a 500
with the state unchanged; and that reachable three-call state satisfies the
uniqueness invariant. -/
theorem claim_C3_amended_witness :
    postAsset cexS1 sampleCtx
      (some [("assetTag", JsVal.vStr "T1"), ("name", JsVal.vStr "X")]) "a9" =
      (ApiOut.error 400 "Asset tag already exists", cexS1) ∧
    patchAsset cexS3 sampleCtx "a1" (some [("assetTag", JsVal.vStr "")]) =
      (ApiOut.error 500 "Failed to update asset", cexS3) ∧
    TagInv cexS3 := by
  refine ⟨?_, ?_, ?_⟩
  · exact claim_C3_amended.1 cexS1 sampleCtx
      [("assetTag", JsVal.vStr "T1"), ("name", JsVal.vStr "X")] "a9"
      ⟨[("id", JsVal.vStr "a1"), ("assetTag", JsVal.vStr "T1"),
        ("name", JsVal.vStr "Laptop")], by decide⟩
  · exact claim_C3_amended.2.2.1 cexS3 sampleCtx "a1"
      [("assetTag", JsVal.vStr "")]
      [("id", JsVal.vStr "a1"), ("assetTag", JsVal.vStr "T1"),
        ("name", JsVal.vStr "Laptop")]
      (by decide) (by decide) (by decide)
  · refine claim_C3_amended.2.2.2 cexS3 ?_
    have h1 : Step initState cexS1 := Step.asset_create initState sampleCtx _ "a1"
    have h2 : Step cexS1 cexS2 := Step.asset_create cexS1 sampleCtx _ "a2"
    have h3 : Step cexS2 cexS3 := Step.asset_update cexS2 sampleCtx "a2" _
    exact Relation.ReflTransGen.tail
      (Relation.ReflTransGen.tail (Relation.ReflTransGen.single h1) h2) h3

/-! ### Bulk import (C4) -/

theorem processImportRow_fail_iff (s : ServerState) (ctx : ReqCtx) (catId : JsVal)
    (r : ImportRow) :
    (processImportRow s ctx catId r).1 = false ↔
      (jsTruthy (jsGet r.row "assetTag") = false ∨
       jsTruthy (jsGet r.row "name") = false ∨
       (∃ a, getAssetByTag s (jsGet r.row "assetTag") = some a) ∨
       r.storageOk = false) := by
  unfold processImportRow
  by_cases h1 : (!jsTruthy (jsGet r.row "assetTag") || !jsTruthy (jsGet r.row "name")) = true
  · rw [if_pos h1]
    simp only [Bool.or_eq_true, Bool.not_eq_true'] at h1
    constructor
    · intro _
      rcases h1 with h | h
      · exact Or.inl h
      · exact Or.inr (Or.inl h)
    · intro _
      rfl
  · rw [if_neg h1]
    simp only [Bool.or_eq_true, Bool.not_eq_true'] at h1
    push_neg at h1
    obtain ⟨ha, hb⟩ := h1
    rcases hg : getAssetByTag s (jsGet r.row "assetTag") with _ | a <;> simp only [hg]
    · split
      · constructor
        · intro hf
          simp at hf
        · intro hcases
          rcases hcases with h | h | ⟨a, h⟩ | h
          · exact absurd h (by simp [ha])
          · exact absurd h (by simp [hb])
          · simp at h
          · rename_i hok
            rw [hok] at h
            simp at h
      · rename_i hok
        constructor
        · intro _
          refine Or.inr (Or.inr (Or.inr ?_))
          exact Bool.not_eq_true _ ▸ (by simpa using hok)
        · intro _
          trivial
    · constructor
      · intro _
        exact Or.inr (Or.inr (Or.inl ⟨a, rfl⟩))
      · intro _
        trivial

theorem processImportRow_effect (s : ServerState) (ctx : ReqCtx) (catId : JsVal)
    (r : ImportRow) :
    ((processImportRow s ctx catId r).1 = false ∧ (processImportRow s ctx catId r).2 = s) ∨
    ((processImportRow s ctx catId r).1 = true ∧
      (processImportRow s ctx catId r).2.assets =
        s.assets ++ [("id", JsVal.vStr r.newId) :: importAssetData r.row catId]) := by
  unfold processImportRow
  split
  · exact Or.inl ⟨by trivial, by trivial⟩
  · rcases hg : getAssetByTag s (jsGet r.row "assetTag") with _ | a <;> simp only [hg]
    · split
      · exact Or.inr ⟨by trivial, by trivial⟩
      · exact Or.inl ⟨by trivial, by trivial⟩
    · exact Or.inl ⟨by trivial, by trivial⟩

theorem runImportRows_spec (ctx : ReqCtx) (catId : JsVal) :
    ∀ (rows : List ImportRow) (s : ServerState),
      (runImportRows ctx catId s rows).1 + (runImportRows ctx catId s rows).2.1 =
        rows.length ∧
      ∃ new, (runImportRows ctx catId s rows).2.2.assets = s.assets ++ new ∧
        new.length = (runImportRows ctx catId s rows).1
  | [], s => ⟨rfl, [], by simp [runImportRows], rfl⟩
  | r :: rest, s => by
    obtain ⟨hc, new, hnew, hlen⟩ :=
      runImportRows_spec ctx catId rest (processImportRow s ctx catId r).2
    rcases processImportRow_effect s ctx catId r with ⟨hres, heq⟩ | ⟨hres, heq⟩
    · refine ⟨?_, new, ?_, ?_⟩
      · simp only [runImportRows, hres, Bool.false_eq_true, if_false, List.length_cons]
        omega
      · simp only [runImportRows, hres, Bool.false_eq_true, if_false]
        rw [hnew, heq]
      · simp only [runImportRows, hres, Bool.false_eq_true, if_false]
        exact hlen
    · refine ⟨?_, (("id", JsVal.vStr r.newId) :: importAssetData r.row catId) :: new,
        ?_, ?_⟩
      · simp only [runImportRows, hres, if_true, List.length_cons]
        omega
      · simp only [runImportRows, hres, if_true]
        rw [hnew, heq]
        simp
      · simp only [runImportRows, hres, if_true, List.length_cons]
        omega

theorem status_truthy_redundant (v : JsVal) :
    (jsTruthy v && (ASSET_STATUSES.map JsVal.vStr).contains v) =
      (ASSET_STATUSES.map JsVal.vStr).contains v := by
  by_cases h : ((ASSET_STATUSES.map JsVal.vStr).contains v) = true
  · have hm : v ∈ ASSET_STATUSES.map JsVal.vStr := by simpa using h
    have ht : jsTruthy v = true := by
      simp [ASSET_STATUSES] at hm
      rcases hm with rfl | rfl | rfl | rfl | rfl | rfl | rfl <;> decide
    rw [h, ht]
    rfl
  · have hf : ((ASSET_STATUSES.map JsVal.vStr).contains v) = false :=
      Bool.not_eq_true _ ▸ (by simpa using h)
    rw [hf]
    simp

theorem importAssetData_status (row : Rec) (catId : JsVal) :
    jsGet (importAssetData row catId) "status" =
      (if jsTruthy (jsGet row "status") &&
          (ASSET_STATUSES.map JsVal.vStr).contains (jsGet row "status") then
        jsGet row "status"
      else JsVal.vStr "active") := by
  unfold importAssetData
  rw [jsGet_cons, if_neg (by decide), jsGet_cons, if_neg (by decide),
    jsGet_cons, if_neg (by decide), jsGet_cons, if_neg (by decide),
    jsGet_cons, if_pos rfl]

theorem created_status_mem (row : Rec) (catId : JsVal) (nid : String) :
    jsGet (("id", JsVal.vStr nid) :: importAssetData row catId) "status" ∈
      ASSET_STATUSES.map JsVal.vStr := by
  rw [jsGet_cons, if_neg (by decide), importAssetData_status]
  by_cases h : (jsTruthy (jsGet row "status") &&
      (ASSET_STATUSES.map JsVal.vStr).contains (jsGet row "status")) = true
  · rw [if_pos h]
    have := (Bool.and_eq_true _ _).mp h
    simpa using this.2
  · rw [if_neg h]
    decide

/-- C4: bulk import.  The response counts satisfy success + failed = total =
number of submitted rows, and the loop appends exactly `success` new assets to
the asset table; a row fails exactly when it lacks a (truthy) assetTag or
name, when an asset with its tag already exists in the current state
(including one created by an earlier row of the same request), or when the
storage create fails; a created asset's status is the row's status when that
status is a member of ASSET_STATUSES and "active" otherwise (every member of
ASSET_STATUSES is truthy, so the code's extra truthiness test is redundant). -/
theorem claim_C4_bulk_import :
    (∀ (s : ServerState) (ctx : ReqCtx) (rows : List ImportRow) (catId : JsVal),
      ∃ succ fail s',
        postImport s ctx (some (rows, catId)) =
          (ImportOut.done succ fail rows.length, s') ∧
        succ + fail = rows.length ∧
        ∃ new, s'.assets = s.assets ++ new ∧ new.length = succ) ∧
    (∀ (s : ServerState) (ctx : ReqCtx) (catId : JsVal) (r : ImportRow),
      (processImportRow s ctx catId r).1 = false ↔
        (jsTruthy (jsGet r.row "assetTag") = false ∨
         jsTruthy (jsGet r.row "name") = false ∨
         (∃ a, getAssetByTag s (jsGet r.row "assetTag") = some a) ∨
         r.storageOk = false)) ∧
    (∀ (s : ServerState) (ctx : ReqCtx) (catId : JsVal) (r : ImportRow),
      (processImportRow s ctx catId r).1 = true →
      (processImportRow s ctx catId r).2.assets =
        s.assets ++ [("id", JsVal.vStr r.newId) :: importAssetData r.row catId]) ∧
    (∀ (row : Rec) (catId : JsVal) (nid : String),
      jsGet (("id", JsVal.vStr nid) :: importAssetData row catId) "status" =
        (if (ASSET_STATUSES.map JsVal.vStr).contains (jsGet row "status") then
          jsGet row "status"
        else JsVal.vStr "active") ∧
      jsGet (("id", JsVal.vStr nid) :: importAssetData row catId) "status" ∈
        ASSET_STATUSES.map JsVal.vStr) := by
  refine ⟨?_, processImportRow_fail_iff, ?_, ?_⟩
  · intro s ctx rows catId
    obtain ⟨hc, new, hnew, hlen⟩ := runImportRows_spec ctx catId rows s
    refine ⟨(runImportRows ctx catId s rows).1, (runImportRows ctx catId s rows).2.1,
      _, rfl, hc, new, ?_, hlen⟩
    simpa [postImport] using hnew
  · intro s ctx catId r hres
    rcases processImportRow_effect s ctx catId r with ⟨hf, _⟩ | ⟨_, heq⟩
    · rw [hres] at hf
      simp at hf
    · exact heq
  · intro row catId nid
    constructor
    · rw [jsGet_cons, if_neg (by decide), importAssetData_status,
        status_truthy_redundant]
    · exact created_status_mem row catId nid

/-- Witness for C4 at a concrete two-row request: the first row imports, the
second (same tag) fails. -/
theorem claim_C4_bulk_import_witness :
    ∃ succ fail s',
      postImport initState sampleCtx
        (some ([⟨[("assetTag", JsVal.vStr "T1"), ("name", JsVal.vStr "A")], true, "i1"⟩,
                ⟨[("assetTag", JsVal.vStr "T1"), ("name", JsVal.vStr "B")], true, "i2"⟩],
               JsVal.vNull)) =
        (ImportOut.done succ fail 2, s') ∧
      succ + fail = 2 ∧
      ∃ new, s'.assets = initState.assets ++ new ∧ new.length = succ := by
  have h := claim_C4_bulk_import.1 initState sampleCtx
    [⟨[("assetTag", JsVal.vStr "T1"), ("name", JsVal.vStr "A")], true, "i1"⟩,
     ⟨[("assetTag", JsVal.vStr "T1"), ("name", JsVal.vStr "B")], true, "i2"⟩]
    JsVal.vNull
  simpa using h

/-! ### Audit-log listing limit (C9) -/

/-- `storage.getAuditLogs(limit?)`: order newest first (the state stores logs
in insertion order, so newest-first is the reverse) and apply `.limit(n)` only
when the JS value `limit` is truthy — `undefined` and `0` are both falsy. -/
def getAuditLogs (logs : List AuditLog) : Option Nat → List AuditLog
  | some n => if n ≠ 0 then logs.reverse.take n else logs.reverse
  | none => logs.reverse

/-- C9: `getAuditLogs` (and hence GET /api/audit-logs?limit=N) returns at most
N logs — the first N of the newest-first ordering — for positive N, but for
the falsy limit 0 it returns ALL logs, exactly as when no limit is given. -/
theorem claim_C9_audit_limit (logs : List AuditLog) (n : Nat) :
    (0 < n → (getAuditLogs logs (some n)).length ≤ n ∧
      getAuditLogs logs (some n) = logs.reverse.take n) ∧
    getAuditLogs logs (some 0) = logs.reverse ∧
    getAuditLogs logs none = logs.reverse ∧
    getAuditLogs logs (some 0) = getAuditLogs logs none := by
  refine ⟨?_, ?_, rfl, ?_⟩
  · intro hn
    have hne : n ≠ 0 := Nat.pos_iff_ne_zero.mp hn
    constructor
    · simp only [getAuditLogs]
      rw [if_pos hne]
      exact List.length_take_le n logs.reverse
    · simp only [getAuditLogs]
      rw [if_pos hne]
  · simp only [getAuditLogs]
    rw [if_neg (by simp)]
  · simp only [getAuditLogs]
    rw [if_neg (by simp)]

/-- A sample audit record for concrete evaluations. -/
def sampleLog : AuditLog :=
  ⟨"asset", "a1", "create", none, "System", none, none, none, "ip", "ua"⟩

/-- Witness for C9 at limit 2 over three records. -/
theorem claim_C9_audit_limit_witness :
    (getAuditLogs [sampleLog, sampleLog, sampleLog] (some 2)).length ≤ 2 ∧
    getAuditLogs [sampleLog, sampleLog, sampleLog] (some 2) =
      [sampleLog, sampleLog, sampleLog].reverse.take 2 :=
  (claim_C9_audit_limit [sampleLog, sampleLog, sampleLog] 2).1 (by decide)

/-! ### LDAP role derivation (C7) -/

/-- A directory user as produced by the LDAP search (`ldap.ts`). -/
structure LdapUser where
  dn : String
  employeeId : String
  displayName : String
  email : String
  sAMAccountName : String
  department : Option String
  title : Option String
  manager : Option String
  officeLocation : Option String
  phone : Option String
  memberOf : List String
deriving DecidableEq, Repr

/-- The LDAP configuration read from the environment (`getLdapConfig`); the
optional group DNs are `none` when the variable is unset. -/
structure LdapConfig where
  url : String
  baseDN : String
  bindDN : String
  bindPassword : String
  userSearchFilter : String
  groupSearchFilter : String
  adminGroupDN : Option String
  userGroupDN : Option String
  readOnlyGroupDN : Option String
deriving DecidableEq, Repr

/-- JS truthiness of an optional string (unset and "" are falsy). -/
def optTruthy : Option String → Bool
  | some s => s ≠ ""
  | none => false

/-- `getUserRole` from `ldap.ts`: lowercase the user's `memberOf` entries; if
the admin group DN is set and contained in some entry, "admin"; else if the
read-only group DN is set and contained in some entry, "readonly"; else
"user".  (The lowercased membership list is inlined at its two use sites.) -/
def getUserRole (user : LdapUser) (config : LdapConfig) : String :=
  if optTruthy config.adminGroupDN &&
      (user.memberOf.map String.toLower).any
        (fun g => strIncludes g (String.toLower (config.adminGroupDN.getD ""))) then
    "admin"
  else if optTruthy config.readOnlyGroupDN &&
      (user.memberOf.map String.toLower).any
        (fun g => strIncludes g (String.toLower (config.readOnlyGroupDN.getD ""))) then
    "readonly"
  else
    "user"

/-- The user's membership matches the configured admin group. -/
def adminCond (user : LdapUser) (config : LdapConfig) : Prop :=
  optTruthy config.adminGroupDN = true ∧
  ∃ g ∈ user.memberOf,
    strIncludes (String.toLower g) (String.toLower (config.adminGroupDN.getD "")) = true

/-- The user's membership matches the configured read-only group. -/
def readOnlyCond (user : LdapUser) (config : LdapConfig) : Prop :=
  optTruthy config.readOnlyGroupDN = true ∧
  ∃ g ∈ user.memberOf,
    strIncludes (String.toLower g) (String.toLower (config.readOnlyGroupDN.getD "")) = true

theorem adminCond_iff (user : LdapUser) (config : LdapConfig) :
    (optTruthy config.adminGroupDN &&
      (user.memberOf.map String.toLower).any
        (fun g => strIncludes g (String.toLower (config.adminGroupDN.getD "")))) = true ↔
    adminCond user config := by
  simp [adminCond, List.any_map, Function.comp, List.any_eq_true]

theorem readOnlyCond_iff (user : LdapUser) (config : LdapConfig) :
    (optTruthy config.readOnlyGroupDN &&
      (user.memberOf.map String.toLower).any
        (fun g => strIncludes g (String.toLower (config.readOnlyGroupDN.getD "")))) = true ↔
    readOnlyCond user config := by
  simp [readOnlyCond, List.any_map, Function.comp, List.any_eq_true]

/-- C7: role derivation from directory group membership.  A user in the
configured admin group (case-insensitive substring match on `memberOf`) gets
"admin" — taking precedence over read-only membership; otherwise read-only
membership gives "readonly"; otherwise the role is "user" (also when a group
DN is unset or empty). -/
theorem claim_C7_role_derivation (user : LdapUser) (config : LdapConfig) :
    (adminCond user config → getUserRole user config = "admin") ∧
    (¬ adminCond user config → readOnlyCond user config →
      getUserRole user config = "readonly") ∧
    (¬ adminCond user config → ¬ readOnlyCond user config →
      getUserRole user config = "user") := by
  refine ⟨?_, ?_, ?_⟩
  · intro h
    unfold getUserRole
    rw [if_pos ((adminCond_iff user config).mpr h)]
  · intro hna h
    unfold getUserRole
    rw [if_neg (fun hc => hna ((adminCond_iff user config).mp hc))]
    rw [if_pos ((readOnlyCond_iff user config).mpr h)]
  · intro hna hnr
    unfold getUserRole
    rw [if_neg (fun hc => hna ((adminCond_iff user config).mp hc))]
    rw [if_neg (fun hc => hnr ((readOnlyCond_iff user config).mp hc))]

def wLdapUser : LdapUser :=
  ⟨"cn=bob,ou=users,dc=corp", "e1", "Bob", "bob@corp", "bob",
   none, none, none, none, none, ["CN=IT-Admins,OU=Groups,DC=corp"]⟩

def wLdapConfig : LdapConfig :=
  ⟨"ldap://dc", "dc=corp", "cn=svc,dc=corp", "pw",
   "(objectClass=user)", "(objectClass=group)",
   some "It-Admins", none, some "ReadOnly"⟩

/-- Witness for C7: a member of the configured admin group gets "admin". -/
theorem claim_C7_role_derivation_witness :
    getUserRole wLdapUser wLdapConfig = "admin" :=
  (claim_C7_role_derivation wLdapUser wLdapConfig).1
    ⟨by decide, "CN=IT-Admins,OU=Groups,DC=corp", by decide,
      by with_unfolding_all decide⟩

/-! ### Local-login responses never expose the password hash (C10) -/

/-- Modelled from the spec: the local-login user record type lives in
`shared/models/auth`, which is not among the provided sources.  Its fields
follow the spec ("session-based local login (email/password with salted
hashing)") and the record's uses in the provided `auth.ts` and route modules:
`id`, `email`, `password` (the bcrypt hash), `firstName`, `lastName`, `role`,
`isAdmin`, `isActive`. -/
structure User where
  id : String
  email : String
  password : String
  firstName : String
  lastName : Option String
  role : String
  isAdmin : Bool
  isActive : Bool
deriving DecidableEq, Repr

/-- Modelled from the spec: `SafeUser` is the user record without the
`password` field, as produced by `sanitizeUser`'s rest-destructuring. -/
structure SafeUser where
  id : String
  email : String
  firstName : String
  lastName : Option String
  role : String
  isAdmin : Bool
  isActive : Bool
deriving DecidableEq, Repr

/-- `sanitizeUser` from `auth.ts`: `const { password, ...safeUser } = user`. -/
def sanitizeUser (user : User) : SafeUser :=
  ⟨user.id, user.email, user.firstName, user.lastName, user.role,
   user.isAdmin, user.isActive⟩

/-- `registerUser` from `auth.ts`: hash the password (the hash function is a
parameter abstracting bcrypt), insert the user row (role/admin/active column
defaults modelled from the spec, `lastName || null`), and return the
sanitized record. -/
def registerUser (db : List User) (hash : String → String)
    (newId email password firstName : String) (lastName : Option String) :
    SafeUser × List User :=
  let user : User :=
    ⟨newId, email.toLower, hash password, firstName,
     (match lastName with
      | some s => if s = "" then none else some s
      | none => none),
     "user", false, true⟩
  (sanitizeUser user, db ++ [user])

/-- `getUser` from `auth.ts`: look the row up by id and sanitize it. -/
def getUser (db : List User) (id : String) : Option SafeUser :=
  (db.find? (fun u => u.id == id)).map sanitizeUser

/-- `passport.deserializeUser` from `auth.ts`: the session user is the
sanitized row looked up by the serialized id. -/
def deserializeUser (db : List User) (id : String) : Option SafeUser :=
  (db.find? (fun u => u.id == id)).map sanitizeUser

/-- C10: the password hash never appears in an authentication response.
`sanitizeUser` keeps every field except `password` unchanged and its output
does not depend on the password at all (noninterference); every user object
returned by `registerUser`, `getUser` and the session deserializer is the
image under `sanitizeUser` of a stored row, so no such response carries the
stored hash. -/
theorem claim_C10_password_sanitized :
    (∀ u : User, (sanitizeUser u).id = u.id ∧ (sanitizeUser u).email = u.email ∧
      (sanitizeUser u).firstName = u.firstName ∧
      (sanitizeUser u).lastName = u.lastName ∧
      (sanitizeUser u).role = u.role ∧ (sanitizeUser u).isAdmin = u.isAdmin ∧
      (sanitizeUser u).isActive = u.isActive) ∧
    (∀ (u : User) (p : String), sanitizeUser { u with password := p } = sanitizeUser u) ∧
    (∀ (db : List User) (i : String) (r : SafeUser),
      getUser db i = some r → ∃ w ∈ db, r = sanitizeUser w) ∧
    (∀ (db : List User) (i : String) (r : SafeUser),
      deserializeUser db i = some r → ∃ w ∈ db, r = sanitizeUser w) ∧
    (∀ (db : List User) (hash : String → String) (newId email pw fn : String)
        (ln : Option String),
      ∃ w : User, (registerUser db hash newId email pw fn ln).1 = sanitizeUser w ∧
        (registerUser db hash newId email pw fn ln).2 = db ++ [w]) := by
  refine ⟨?_, ?_, ?_, ?_, ?_⟩
  · intro u
    exact ⟨rfl, rfl, rfl, rfl, rfl, rfl, rfl⟩
  · intro u p
    rfl
  · intro db i r h
    unfold getUser at h
    obtain ⟨w, hw, hr⟩ := Option.map_eq_some'.mp h
    exact ⟨w, List.mem_of_find?_eq_some hw, hr.symm⟩
  · intro db i r h
    unfold deserializeUser at h
    obtain ⟨w, hw, hr⟩ := Option.map_eq_some'.mp h
    exact ⟨w, List.mem_of_find?_eq_some hw, hr.symm⟩
  · intro db hash newId email pw fn ln
    exact ⟨_, rfl, rfl⟩

def wUser : User := ⟨"u1", "a@b.c", "bcrypt$hash", "Ada", none, "user", false, true⟩

/-- Witness for C10: the sanitized record of a concrete user is independent
of its password, and a `getUser` hit is the sanitized stored row. -/
theorem claim_C10_password_sanitized_witness :
    sanitizeUser { wUser with password := "other" } = sanitizeUser wUser ∧
    ∃ w ∈ [wUser], sanitizeUser wUser = sanitizeUser w := by
  constructor
  · exact claim_C10_password_sanitized.2.1 wUser "other"
  · exact claim_C10_password_sanitized.2.2.1 [wUser] "u1" (sanitizeUser wUser) rfl

end AssetMgmt
